import Mathlib

/-!
Shallow embedding of the Forecast Allocation & Variance Analytics Engine
(app/actual/page.tsx, src/unnamed/part_000).

Modelling conventions:
- JS numbers are modelled as rationals (ℚ); `Number(x.toFixed(2))` is modelled
  as rounding to two decimal places (`round2`).
- Normalized ISO-8601 date strings ("YYYY-MM-DD", the output format of
  `normalizeDateString`) are modelled as civil (year, month, day) triples
  (`YMD`); `new Date(iso).getTime()` is modelled as `epochDays · * msPerDay`
  via the standard days-from-civil conversion, and the "YYYY-MM" prefix used
  for month bucketing is modelled as the (year, month) pair.
- JS objects / `Map`s read by key are modelled as partial functions
  (`YMD → Option ℚ`) or association lists with in-place update (`updMap`),
  matching `Map.set` semantics (update keeps position, insert appends).
- The composite string keys `ym|dept|no_mat` and `dept|no_mat` are modelled
  as structured tuples (the join/split pair is the identity on the tuple
  components for "|"-free fields).
- `Array.prototype.sort(cmp)` is modelled as `List.mergeSort` with the
  boolean relation `cmp a b ≤ 0`.
-/

namespace ActualPage

/-- Whitespace test for the JS `String.prototype.trim` model (ASCII
whitespace). -/
def wsChar (c : Char) : Bool := c = ' ' ∨ c = '\t' ∨ c = '\n' ∨ c = '\r'

/-- Models JS `s.trim()`: drop leading and trailing whitespace. -/
def jsTrim (s : String) : String :=
  ⟨((s.data.dropWhile wsChar).reverse.dropWhile wsChar).reverse⟩

/-- ASCII lowercasing of one character. -/
def lowChar (c : Char) : Char :=
  if 'A' ≤ c ∧ c ≤ 'Z' then Char.ofNat (c.toNat + 32) else c

/-- Models JS `s.toLowerCase()` on the ASCII range. -/
def jsLower (s : String) : String := ⟨s.data.map lowChar⟩

/-- Material category after free-text normalization ("Direct Material" /
"Indirect Material" / "Unassigned"). -/
inductive Cat where
  | direct
  | indirect
  | unassigned
deriving DecidableEq, Repr

/-- Embeds `normalizeCategory`: trim and lowercase the raw category, match the
recognized variant lists, anything else is Unassigned. -/
def normalizeCategory (raw : Option String) : Cat :=
  let s := jsLower (jsTrim (raw.getD ""))
  if s = "direct" ∨ s = "direct material" ∨ s = "dm" then Cat.direct
  else if s = "indirect" ∨ s = "indirect material" ∨ s = "im" then Cat.indirect
  else Cat.unassigned

/-- Embeds a `masterMap` entry (`MasterRow` of the page, post-fetch). -/
structure MasterRow where
  price : ℚ
  quantity : ℚ
  category : Option String
  mat_name : Option String
deriving DecidableEq, Repr

/-- Association-list lookup with decidable key equality (JS object /
`Map.get` read-by-key semantics). -/
def alookup {κ ν : Type} [DecidableEq κ] : List (κ × ν) → κ → Option ν
  | [], _ => none
  | (k0, v0) :: t, k => if k0 = k then some v0 else alookup t k

/-- Embeds `vpu`: value per unit, `price / Math.max(1, quantity)`; 0 for a
material missing from the master map. -/
def vpu (mm : List (String × MasterRow)) (no_mat : String) : ℚ :=
  match alookup mm no_mat with
  | none => 0
  | some m => m.price / max 1 m.quantity

/-- Embeds `masterMap[no_mat]?.mat_name ?? ""`. -/
def matName (mm : List (String × MasterRow)) (no_mat : String) : String :=
  ((alookup mm no_mat).bind (·.mat_name)).getD ""

/-- Department filter mode (`DeptMode`). -/
inductive DeptMode where
  | all
  | list
  | unassigned
deriving DecidableEq, Repr

/-- Material filter option (`MaterialOpt`): "all" or one of the three
normalized categories. -/
inductive MaterialOpt where
  | all
  | cat (c : Cat)
deriving DecidableEq, Repr

/-- Embeds the filter-relevant part of `FilterState`. -/
structure FilterState where
  year : Int
  month : Nat
  deptMode : DeptMode
  deptSelected : Option String
  material : MaterialOpt
deriving DecidableEq, Repr

/-- Embeds `isDeptAllowed`: mode `all` passes everything; mode `list` passes
when either the dept or the shop field trim-equals the selected target; mode
`unassigned` passes when the coalesced trimmed value is empty or absent from
the department reference set. -/
def isDeptAllowed (f : FilterState) (deptSet : List String)
    (rowDept rowShop : Option String) : Bool :=
  match f.deptMode with
  | DeptMode.all => true
  | DeptMode.list =>
      let target := jsTrim (f.deptSelected.getD "")
      (match rowDept with
       | some d => jsTrim d = target
       | none => false) ||
      (match rowShop with
       | some s => jsTrim s = target
       | none => false)
  | DeptMode.unassigned =>
      let v := jsTrim (rowDept.getD (rowShop.getD ""))
      v = "" || !(decide (v ∈ deptSet))

/-- Embeds `isMaterialAllowed`: compares the normalized category of the
material's master row against the material filter. -/
def isMaterialAllowed (f : FilterState) (mm : List (String × MasterRow))
    (no_mat : String) : Bool :=
  let norm := normalizeCategory ((alookup mm no_mat).bind (·.category))
  match f.material with
  | MaterialOpt.all => true
  | MaterialOpt.cat c => norm = c

/-- Denotation of a normalized ISO-8601 date string ("YYYY-MM-DD") as a civil
(year, month, day) triple. -/
structure YMD where
  year : Int
  month : Nat
  day : Nat
deriving DecidableEq, Repr

/-- Days since the Unix epoch (1970-01-01) of a civil date, the standard
days-from-civil conversion; `new Date(iso).getTime()` is
`epochDays · * msPerDay` for a normalized ISO date. -/
def epochDays (d : YMD) : Int :=
  let y : Int := if d.month ≤ 2 then d.year - 1 else d.year
  let era : Int := Int.fdiv y 400
  let yoe : Int := y - era * 400
  let mp : Int := Int.fmod ((d.month : Int) + 9) 12
  let doy : Int := Int.fdiv (153 * mp + 2) 5 + (d.day : Int) - 1
  let doe : Int := yoe * 365 + Int.fdiv yoe 4 - Int.fdiv yoe 100 + doy
  era * 146097 + doe - 719468

/-- Milliseconds per day (86400000), the divisor in the delay computation. -/
def msPerDay : Int := 86400000

/-- Embeds `Number(x.toFixed(2))`: rounding to two decimal places. -/
def round2 (x : ℚ) : ℚ := ((round (x * 100) : ℤ) : ℚ) / 100

/-- Embeds `ActualRow` after the fetch mapping (dates normalized, quantity
coerced by `safeNumber`, rows without a posting date dropped). -/
structure ActualRow where
  no_mat : String
  posting_date : YMD
  document_date : Option YMD
  quantity : ℚ
  dept : Option String
deriving DecidableEq, Repr

/-- Embeds `ForecastRow` after the fetch mapping. -/
structure ForecastRow where
  no_mat : String
  shop : Option String
  quantity : ℚ
  month : Option YMD
deriving DecidableEq, Repr

/-- Embeds a `calender1`/`calender2` row as fetched: the normalized date
(`none` when `normalizeDateString` fails) and the two coerced time fields. -/
structure CalRow where
  date : Option YMD
  working_time : ℚ
  over_time : ℚ
deriving DecidableEq, Repr

/-- Embeds `(x ?? "").trim() || "—"`: the department display key. -/
def dashDept (s : String) : String := if jsTrim s = "" then "—" else jsTrim s

/- ===== Delayed postings (lines 1009-1028) ===== -/

/-- Output row of `delayedTransactions`. -/
structure DelayRow where
  no_mat : String
  mat_name : String
  shop : String
  quantity : ℚ
  delayedDays : Int
deriving DecidableEq, Repr

/-- Per-row body of the `delayedTransactions` loop: skip rows without a
document date; when `posting.getTime() < document.getTime()`, emit a record
with `delayedDays = Math.ceil(ms / 86400000)`. -/
def delayEmit (mm : List (String × MasterRow)) (r : ActualRow) : Option DelayRow :=
  match r.document_date with
  | none => none
  | some doc =>
      if epochDays r.posting_date * msPerDay < epochDays doc * msPerDay then
        some { no_mat := r.no_mat
               mat_name := matName mm r.no_mat
               shop := dashDept (r.dept.getD "")
               quantity := r.quantity
               delayedDays :=
                 ⌈(((epochDays doc * msPerDay - epochDays r.posting_date * msPerDay : Int) : ℚ)
                    / (msPerDay : ℚ))⌉ }
      else none

/-- Embeds `delayedTransactions`: emit per row, then sort descending by
`delayedDays` (`(a, b) => b.delayedDays - a.delayedDays`). -/
def delayedTransactions (rows : List ActualRow) (mm : List (String × MasterRow)) :
    List DelayRow :=
  (rows.filterMap (delayEmit mm)).mergeSort
    (fun a b => decide (b.delayedDays ≤ a.delayedDays))

/- ===== Filtered tables (lines 813-837) ===== -/

/-- Row of `filteredActual`: the filtered, value-extended actual table. -/
structure FilteredActualRow where
  posting_date : YMD
  no_mat : String
  dept : String
  quantity : ℚ
  value : ℚ
deriving DecidableEq, Repr

/-- Row of `filteredForecast`: the filtered, location- and value-extended
forecast table. -/
structure FilteredForecastRow where
  shop : String
  loc : ℚ
  no_mat : String
  quantity : ℚ
  value : ℚ
deriving DecidableEq, Repr

/-- Embeds `filteredActual`: keep rows passing both filters, attach the
2-decimal value `quantity * vpu`. -/
def filteredActual (f : FilterState) (deptSet : List String)
    (mm : List (String × MasterRow)) (rows : List ActualRow) : List FilteredActualRow :=
  (rows.filter
      (fun r => isMaterialAllowed f mm r.no_mat && isDeptAllowed f deptSet r.dept none)).map
    (fun r =>
      { posting_date := r.posting_date
        no_mat := r.no_mat
        dept := r.dept.getD ""
        quantity := r.quantity
        value := round2 (r.quantity * vpu mm r.no_mat) })

/-- Embeds `filteredForecast`: keep rows passing both filters, attach the
shop calendar location (`shopMap[shop] ?? 1`) and the 2-decimal value. -/
def filteredForecast (f : FilterState) (deptSet : List String)
    (mm : List (String × MasterRow)) (sm : List (String × ℚ))
    (rows : List ForecastRow) : List FilteredForecastRow :=
  (rows.filter
      (fun r => isMaterialAllowed f mm r.no_mat && isDeptAllowed f deptSet none r.shop)).map
    (fun r =>
      { shop := r.shop.getD ""
        loc := (alookup sm (jsTrim (r.shop.getD ""))).getD 1
        no_mat := r.no_mat
        quantity := r.quantity
        value := round2 (r.quantity * vpu mm r.no_mat) })

/- ===== Graph aggregation (lines 878-945) ===== -/

/-- Embeds the `actualDaily` array fill: for each filtered actual row, add
its value into the bucket of its posting date (first index in the month date
list), ignoring rows whose date is not in the list. -/
def actualDaily (dates : List YMD) (fa : List FilteredActualRow) : List ℚ :=
  fa.foldl
    (fun acc r =>
      match dates.findIdx? (fun d => d = r.posting_date) with
      | some i => acc.set i (acc.getD i 0 + r.value)
      | none => acc)
    (List.replicate dates.length 0)

/-- Embeds the `cumActualByIdx` loop: running sum rounded to 2 decimals at
each step. -/
def cumRound : ℚ → List ℚ → List ℚ
  | _, [] => []
  | prev, x :: t => round2 (prev + x) :: cumRound (round2 (prev + x)) t

/-- Embeds the per-line `cumUnits` accumulation: running cumulative units
`cumUnits += quantity * weight[i]`, unrounded. -/
def accumUnits (q : ℚ) : ℚ → List ℚ → List ℚ
  | _, [] => []
  | c, w :: t => (c + q * w) :: accumUnits q (c + q * w) t

/-- First differences of a cumulative series against a running previous
value (`(i ? cum[i-1] : 0)`), unrounded. -/
def diffsRaw : ℚ → List ℚ → List ℚ
  | _, [] => []
  | prev, x :: t => (x - prev) :: diffsRaw x t

/-- Elementwise vector addition (the `+=` accumulation across lines). -/
def addV (a b : List ℚ) : List ℚ := List.zipWith (· + ·) a b

/-- Body of the forecast loop of `graphData`: for one filtered forecast
line, pick the weight vector by `loc`, clamp the pack size at 1, accumulate
cumulative units, and add the mid / floor-by-pack / ceil-by-pack value
series into the three accumulator arrays. -/
def forecastStep (w1 w2 : List ℚ) (mm : List (String × MasterRow))
    (acc : List ℚ × List ℚ × List ℚ) (r : FilteredForecastRow) :
    List ℚ × List ℚ × List ℚ :=
  let ws := if r.loc = 2 then w2 else w1
  let pack : ℚ := max 1 (((alookup mm r.no_mat).map (·.quantity)).getD 1)
  let unitPrice := vpu mm r.no_mat
  let cu := accumUnits r.quantity 0 ws
  (addV acc.1 (cu.map (fun c => c * unitPrice)),
   addV acc.2.1 (cu.map (fun c => ((⌊c / pack⌋ : Int) : ℚ) * pack * unitPrice)),
   addV acc.2.2 (cu.map (fun c => ((⌈c / pack⌉ : Int) : ℚ) * pack * unitPrice)))

/-- Embeds the forecast loop of `graphData` across all filtered forecast
lines (cumulative mid, lower, upper value arrays). -/
def forecastCums (w1 w2 : List ℚ) (n : Nat) (mm : List (String × MasterRow))
    (ff : List FilteredForecastRow) : List ℚ × List ℚ × List ℚ :=
  ff.foldl (forecastStep w1 w2 mm)
    (List.replicate n 0, List.replicate n 0, List.replicate n 0)

/-- One output record of `graphData` (the date label is the day of month). -/
structure GraphPoint where
  day : Nat
  actual : ℚ
  forecast : ℚ
  cumActual : ℚ
  cumForecast : ℚ
  cumForecastLower : ℚ
  cumForecastUpper : ℚ
  bandBottom : ℚ
  bandTop : ℚ
deriving DecidableEq, Repr

/-- Embeds `graphData`: assemble the per-day records from the actual and
forecast series, rounding every exposed field to 2 decimals. -/
def graphData (dates : List YMD) (w1 w2 : List ℚ) (fa : List FilteredActualRow)
    (ff : List FilteredForecastRow) (mm : List (String × MasterRow)) : List GraphPoint :=
  let n := dates.length
  let ad := actualDaily dates fa
  let ca := cumRound 0 ad
  let fc := forecastCums w1 w2 n mm ff
  let dm := (diffsRaw 0 fc.1).map round2
  (List.range n).map
    (fun i =>
      { day := (dates.getD i ⟨0, 0, 0⟩).day
        actual := round2 (ad.getD i 0)
        forecast := dm.getD i 0
        cumActual := round2 (ca.getD i 0)
        cumForecast := round2 (fc.1.getD i 0)
        cumForecastLower := round2 (fc.2.1.getD i 0)
        cumForecastUpper := round2 (fc.2.2.getD i 0)
        bandBottom := round2 (round2 (fc.1.getD i 0) - round2 (fc.2.1.getD i 0))
        bandTop := round2 (round2 (fc.2.2.getD i 0) - round2 (fc.1.getD i 0)) })

/- ===== Calendar weight builder (lines 690-729, 865-876) ===== -/

/-- One step of the calendar fetch loop: rows whose date fails to normalize
are skipped; otherwise `map[d] = working_time + over_time` (overwrite) and
the grand total is incremented. -/
def calStep (acc : (YMD → Option ℚ) × ℚ) (r : CalRow) : (YMD → Option ℚ) × ℚ :=
  match r.date with
  | none => acc
  | some d =>
      let w := r.working_time + r.over_time
      (fun x => if x = d then some w else acc.1 x, acc.2 + w)

/-- Folds the calendar rows into the per-date map and the grand total
(`map1` / `tot1` in the fetch effect). -/
def calAccum (rows : List CalRow) : (YMD → Option ℚ) × ℚ :=
  rows.foldl calStep (fun _ => none, 0)

/-- Embeds the uniform fallback: when the grand total is 0, every day of the
month is substituted with weight 1 (`monthDates.forEach(d => map[d] = 1)`). -/
def buildCal (rows : List CalRow) (monthDates : List YMD) : YMD → Option ℚ :=
  let mt := calAccum rows
  if mt.2 = 0 then fun d => if d ∈ monthDates then some 1 else mt.1 d else mt.1

/-- Embeds `dates.map(d => cal[d] ?? 0)`: the raw weight vector. -/
def weightsRaw (dates : List YMD) (cal : YMD → Option ℚ) : List ℚ :=
  dates.map (fun d => (cal d).getD 0)

/-- Embeds the `weights` memo for one calendar: normalize the raw weight
vector by its sum, guarding a zero sum with `|| 1`. -/
def normWeights (dates : List YMD) (cal : YMD → Option ℚ) : List ℚ :=
  (weightsRaw dates cal).map
    (· / (if (weightsRaw dates cal).sum = 0 then 1 else (weightsRaw dates cal).sum))

/-- Gregorian leap-year rule (as implemented by the JS `Date` UTC
arithmetic that `monthRange`/`listMonthDates` rely on). -/
def isLeap (y : Int) : Bool := (y % 4 = 0 ∧ y % 100 ≠ 0) ∨ y % 400 = 0

/-- Number of days in a civil month. -/
def daysInMonth (y : Int) (m : Nat) : Nat :=
  if m = 2 then (if isLeap y then 29 else 28)
  else if m = 4 ∨ m = 6 ∨ m = 9 ∨ m = 11 then 30
  else 31

/-- Embeds `listMonthDates`: every day of the requested month in order. -/
def listMonthDates (y : Int) (m : Nat) : List YMD :=
  (List.range (daysInMonth y m)).map (fun i => ⟨y, m, i + 1⟩)

/- ===== Month totals per dept+material (lines 953-1004) ===== -/

/-- Value of the `monthTotalsByDeptMat` aggregate map. -/
structure AggVal where
  dept : String
  no_mat : String
  mat_name : String
  forecastValue : ℚ
  actualValue : ℚ
deriving DecidableEq, Repr

/-- Models `Map.set` on an association list: update in place when the key
exists (keeping its position), append otherwise. -/
def updMap {κ ν : Type} [DecidableEq κ] :
    List (κ × ν) → κ → (Option ν → ν) → List (κ × ν)
  | [], k, f => [(k, f none)]
  | (k0, v0) :: t, k, f =>
      if k0 = k then (k0, f (some v0)) :: t else (k0, v0) :: updMap t k f

/-- Forecast-totals step of `monthTotalsByDeptMat`: add
`quantity * unitPrice` to the forecast value of the row's
`(dept, no_mat)` key. -/
def forecastTotStep (mm : List (String × MasterRow))
    (agg : List ((String × String) × AggVal)) (r : FilteredForecastRow) :
    List ((String × String) × AggVal) :=
  updMap agg (dashDept r.shop, r.no_mat)
    (fun cur =>
      let c := cur.getD
        { dept := dashDept r.shop, no_mat := r.no_mat,
          mat_name := matName mm r.no_mat, forecastValue := 0, actualValue := 0 }
      { c with forecastValue := c.forecastValue + r.quantity * vpu mm r.no_mat })

/-- Actual-totals step of `monthTotalsByDeptMat`. -/
def actualTotStep (mm : List (String × MasterRow))
    (agg : List ((String × String) × AggVal)) (r : FilteredActualRow) :
    List ((String × String) × AggVal) :=
  updMap agg (dashDept r.dept, r.no_mat)
    (fun cur =>
      let c := cur.getD
        { dept := dashDept r.dept, no_mat := r.no_mat,
          mat_name := matName mm r.no_mat, forecastValue := 0, actualValue := 0 }
      { c with actualValue := c.actualValue + r.quantity * vpu mm r.no_mat })

/-- Embeds `monthTotalsByDeptMat`: aggregate forecast then actual values per
`(dept, no_mat)` key. -/
def monthTotalsByDeptMat (mm : List (String × MasterRow))
    (ff : List FilteredForecastRow) (fa : List FilteredActualRow) :
    List ((String × String) × AggVal) :=
  fa.foldl (actualTotStep mm) (ff.foldl (forecastTotStep mm) [])

/-- Row of the over/under usage tables. -/
structure UsageRow where
  dept : String
  no_mat : String
  mat_name : String
  diff : ℚ
deriving DecidableEq, Repr

/-- Embeds `overUsageRows`: keep keys whose 2-decimal
`actualValue - forecastValue` is positive, sorted descending by the
difference. -/
def overUsageRows (tot : List ((String × String) × AggVal)) : List UsageRow :=
  ((tot.map (·.2)).filterMap
      (fun v =>
        if 0 < round2 (v.actualValue - v.forecastValue)
        then some { dept := v.dept, no_mat := v.no_mat, mat_name := v.mat_name,
                    diff := round2 (v.actualValue - v.forecastValue) }
        else none)).mergeSort
    (fun a b => decide (b.diff ≤ a.diff))

/-- Embeds `underUsageRows`: keep keys whose 2-decimal
`forecastValue - actualValue` is positive, sorted descending. -/
def underUsageRows (tot : List ((String × String) × AggVal)) : List UsageRow :=
  ((tot.map (·.2)).filterMap
      (fun v =>
        if 0 < round2 (v.forecastValue - v.actualValue)
        then some { dept := v.dept, no_mat := v.no_mat, mat_name := v.mat_name,
                    diff := round2 (v.forecastValue - v.actualValue) }
        else none)).mergeSort
    (fun a b => decide (b.diff ≤ a.diff))

/- ===== Department summary (lines 1034-1046) ===== -/

/-- Per-department roll-up before the percentage. -/
structure DeptAgg where
  dept : String
  forecast : ℚ
  actual : ℚ
deriving DecidableEq, Repr

/-- Output row of `deptSummary`. -/
structure DeptSumRow where
  dept : String
  forecast : ℚ
  actual : ℚ
  usagePct : Option ℚ
deriving DecidableEq, Repr

/-- Embeds `deptSummary`: roll up the aggregate map per department, attach
`usagePct = actual/forecast*100` (null when forecast is not positive), sort
by variance descending. -/
def deptSummary (tot : List ((String × String) × AggVal)) : List DeptSumRow :=
  let byDept := tot.foldl
    (fun m kv =>
      updMap m kv.2.dept
        (fun cur =>
          let c := cur.getD ({ dept := kv.2.dept, forecast := 0, actual := 0 } : DeptAgg)
          ({ dept := c.dept, forecast := c.forecast + kv.2.forecastValue,
             actual := c.actual + kv.2.actualValue } : DeptAgg)))
    []
  ((byDept.map (·.2)).map
      (fun d =>
        { dept := d.dept, forecast := d.forecast, actual := d.actual,
          usagePct := if 0 < d.forecast then some (round2 (d.actual / d.forecast * 100))
                      else none })).mergeSort
    (fun a b => decide ((b.actual - b.forecast) ≤ (a.actual - a.forecast)))

/- ===== Continuous over/under (lines 1099-1179) ===== -/

/-- The "YYYY-MM" month-bucketing key of an ISO date, as a (year, month)
pair. -/
def ymKey (d : YMD) : Int × Nat := (d.year, d.month)

/-- The previous civil month. -/
def prevYm : Int × Nat → Int × Nat :=
  fun ym => if ym.2 ≤ 1 then (ym.1 - 1, 12) else (ym.1, ym.2 - 1)

/-- Embeds `threeMonthKeys`: the requested month and its two predecessors,
oldest first. -/
def threeMonthKeys (y : Int) (mon : Nat) : List (Int × Nat) :=
  [prevYm (prevYm (y, mon)), prevYm (y, mon), (y, mon)]

/-- Composite key of the 3-month aggregate maps (`ym|dept|no_mat`). -/
abbrev Key3 := (Int × Nat) × String × String

/-- Embeds the forecast 3-month aggregate map `fMap`: per
(month, dept, material), sum `quantity * unitPrice` over in-window rows. -/
def fMap3 (keys : List (Int × Nat)) (mm : List (String × MasterRow))
    (f3 : List ForecastRow) : List (Key3 × ℚ) :=
  f3.foldl
    (fun m r =>
      match r.month with
      | none => m
      | some mo =>
          if ymKey mo ∈ keys then
            updMap m (ymKey mo, dashDept (r.shop.getD ""), r.no_mat)
              (fun cur => cur.getD 0 + r.quantity * vpu mm r.no_mat)
          else m)
    []

/-- Embeds the actual 3-month aggregate map `aMap`. -/
def aMap3 (keys : List (Int × Nat)) (mm : List (String × MasterRow))
    (a3 : List ActualRow) : List (Key3 × ℚ) :=
  a3.foldl
    (fun m r =>
      if ymKey r.posting_date ∈ keys then
        updMap m (ymKey r.posting_date, dashDept (r.dept.getD ""), r.no_mat)
          (fun cur => cur.getD 0 + r.quantity * vpu mm r.no_mat)
      else m)
    []

/-- Embeds the `combos` map: the distinct `(dept, no_mat)` pairs occurring
among the keys of the two aggregate maps (in-window), in first-seen order. -/
def combos (keys : List (Int × Nat)) (fm am : List (Key3 × ℚ)) :
    List (String × String) :=
  (fm.map (·.1) ++ am.map (·.1)).foldl
    (fun acc k =>
      if k.1 ∈ keys then (if k.2 ∈ acc then acc else acc ++ [k.2]) else acc)
    []

/-- Aggregate-map read with the `?? 0` default. -/
def lookup0 (m : List (Key3 × ℚ)) (k : Key3) : ℚ := (alookup m k).getD 0

/-- Embeds the `vals` array: the 2-decimal monthly deltas `A - F`, oldest
first. -/
def vals3 (keys : List (Int × Nat)) (fm am : List (Key3 × ℚ))
    (dept no : String) : List ℚ :=
  keys.map (fun ym => round2 (lookup0 am (ym, dept, no) - lookup0 fm (ym, dept, no)))

/-- Embeds `sums.A`: total actual value over the window. -/
def sumA3 (keys : List (Int × Nat)) (am : List (Key3 × ℚ))
    (dept no : String) : ℚ :=
  (keys.map (fun ym => lookup0 am (ym, dept, no))).sum

/-- Embeds `sums.F`: total forecast value over the window. -/
def sumF3 (keys : List (Int × Nat)) (fm : List (Key3 × ℚ))
    (dept no : String) : ℚ :=
  (keys.map (fun ym => lookup0 fm (ym, dept, no))).sum

/-- Output record of the continuous over/under computation. -/
structure DiffRec where
  dept : String
  no_mat : String
  mat_name : String
  diff1 : ℚ
  diff2 : ℚ
  diff3 : ℚ
  pct3m : Option ℚ
deriving DecidableEq, Repr

/-- Embeds the per-combo record: the three monthly deltas and the 3-month
usage ratio (`null` unless `sums.F > 0`). -/
def mkRec (keys : List (Int × Nat)) (fm am : List (Key3 × ℚ))
    (mm : List (String × MasterRow)) (dept no : String) : DiffRec :=
  { dept := dept, no_mat := no, mat_name := matName mm no,
    diff1 := (vals3 keys fm am dept no).getD 0 0,
    diff2 := (vals3 keys fm am dept no).getD 1 0,
    diff3 := (vals3 keys fm am dept no).getD 2 0,
    pct3m := if 0 < sumF3 keys fm dept no
             then some (round2 (sumA3 keys am dept no / sumF3 keys fm dept no * 100))
             else none }

/-- Comparator of the continuous-over sort: current delta descending, ratio
(null as -1) descending as tiebreak. -/
def cmpOver (a b : DiffRec) : Bool :=
  decide (b.diff3 < a.diff3
    ∨ (b.diff3 = a.diff3 ∧ b.pct3m.getD (-1) ≤ a.pct3m.getD (-1)))

/-- Comparator of the continuous-under sort: absolute current delta
descending, ratio (null as -1) ascending as tiebreak. -/
def cmpUnder (a b : DiffRec) : Bool :=
  decide (|b.diff3| < |a.diff3|
    ∨ (|b.diff3| = |a.diff3| ∧ a.pct3m.getD (-1) ≤ b.pct3m.getD (-1)))

/-- Embeds the `continuousOver`/`continuousUnder` memo: build the records
for every combo, keep those with all three deltas strictly positive
(respectively strictly negative), and sort. -/
def continuousPair (y : Int) (mon : Nat) (mm : List (String × MasterRow))
    (f3 : List ForecastRow) (a3 : List ActualRow) : List DiffRec × List DiffRec :=
  let keys := threeMonthKeys y mon
  let fm := fMap3 keys mm f3
  let am := aMap3 keys mm a3
  let recs := (combos keys fm am).map (fun dn => mkRec keys fm am mm dn.1 dn.2)
  ((recs.filter
      (fun rec => decide (0 < rec.diff1 ∧ 0 < rec.diff2 ∧ 0 < rec.diff3))).mergeSort cmpOver,
   (recs.filter
      (fun rec => decide (rec.diff1 < 0 ∧ rec.diff2 < 0 ∧ rec.diff3 < 0))).mergeSort cmpUnder)

/- ===== Aggregation facade ===== -/

/-- The input snapshot of one period-view computation: filter state plus the
six fetched collections (reference, shop, two calendars, current-month
actual/forecast, three-month actual/forecast). -/
structure Inputs where
  filters : FilterState
  deptOptions : List String
  masterMap : List (String × MasterRow)
  shopMap : List (String × ℚ)
  cal1rows : List CalRow
  cal2rows : List CalRow
  actualRows : List ActualRow
  forecastRows : List ForecastRow
  actual3m : List ActualRow
  forecast3m : List ForecastRow
deriving DecidableEq, Repr

/-- The assembled output bundle of the page's memoized computations. -/
structure PeriodView where
  graph : List GraphPoint
  totals : List ((String × String) × AggVal)
  overUsage : List UsageRow
  underUsage : List UsageRow
  delays : List DelayRow
  departmentSummary : List DeptSumRow
  contOver : List DiffRec
  contUnder : List DiffRec
deriving DecidableEq, Repr

/-- Embeds the whole derivation chain of the page for one input snapshot:
month dates, calendar weights, filtered tables, graph data, period totals,
over/under usage, delayed postings, department summary, and the continuous
over/under window. -/
def computePeriodView (inp : Inputs) : PeriodView :=
  let dates := listMonthDates inp.filters.year inp.filters.month
  let w1 := normWeights dates (buildCal inp.cal1rows dates)
  let w2 := normWeights dates (buildCal inp.cal2rows dates)
  let fa := filteredActual inp.filters inp.deptOptions inp.masterMap inp.actualRows
  let ff := filteredForecast inp.filters inp.deptOptions inp.masterMap inp.shopMap
    inp.forecastRows
  let tot := monthTotalsByDeptMat inp.masterMap ff fa
  let cont := continuousPair inp.filters.year inp.filters.month inp.masterMap
    inp.forecast3m inp.actual3m
  { graph := graphData dates w1 w2 fa ff inp.masterMap
    totals := tot
    overUsage := overUsageRows tot
    underUsage := underUsageRows tot
    delays := delayedTransactions inp.actualRows inp.masterMap
    departmentSummary := deptSummary tot
    contOver := cont.1
    contUnder := cont.2 }

/- ===== Concrete scenario data for the 3-month window ===== -/

/-- Master map of the continuous-usage scenarios: one material of unit value
1 and pack size 1. -/
def mmC6 : List (String × MasterRow) := [("M1", ⟨1, 1, none, none⟩)]

/-- Forecast rows with negative quantities in each window month (forecast
total -300). -/
def f3negC6 : List ForecastRow :=
  [{ no_mat := "M1", shop := some "A", quantity := -100, month := some ⟨2025, 4, 1⟩ },
   { no_mat := "M1", shop := some "A", quantity := -100, month := some ⟨2025, 5, 1⟩ },
   { no_mat := "M1", shop := some "A", quantity := -100, month := some ⟨2025, 6, 1⟩ }]

/-- Actual rows producing monthly deltas +100, +50, +75 (oldest first). -/
def a3posC6 : List ActualRow :=
  [{ no_mat := "M1", posting_date := ⟨2025, 4, 15⟩, document_date := none,
     quantity := 100, dept := some "A" },
   { no_mat := "M1", posting_date := ⟨2025, 5, 15⟩, document_date := none,
     quantity := 50, dept := some "A" },
   { no_mat := "M1", posting_date := ⟨2025, 6, 15⟩, document_date := none,
     quantity := 75, dept := some "A" }]

/-- Actual rows producing monthly deltas +100, -50, +75 (oldest first). -/
def a3mixC6 : List ActualRow :=
  [{ no_mat := "M1", posting_date := ⟨2025, 4, 15⟩, document_date := none,
     quantity := 100, dept := some "A" },
   { no_mat := "M1", posting_date := ⟨2025, 5, 15⟩, document_date := none,
     quantity := -50, dept := some "A" },
   { no_mat := "M1", posting_date := ⟨2025, 6, 15⟩, document_date := none,
     quantity := 75, dept := some "A" }]

end ActualPage

/- ===== Theorems ===== -/

namespace ActualPage

/-- Helper: summing a lookup vector after a pointwise map update changes the
sum by the difference at the updated (unique) date. -/
theorem sum_lookup_update (dates : List YMD) (m : YMD → Option ℚ) (d : YMD) (w : ℚ)
    (hnd : dates.Nodup) (hd : d ∈ dates) :
    (dates.map (fun x => ((if x = d then some w else m x).getD 0))).sum
      = (dates.map (fun x => (m x).getD 0)).sum - (m d).getD 0 + w := by
  induction dates with
  | nil => cases hd
  | cons a t ih =>
    rcases List.mem_cons.mp hd with h | h
    · rw [← h]
      rw [List.map_cons, List.sum_cons, if_pos rfl, Option.getD_some]
      have hnotin : d ∉ t := by rw [h]; exact (List.nodup_cons.mp hnd).1
      have hmap : t.map (fun x => ((if x = d then some w else m x).getD 0))
          = t.map (fun x => (m x).getD 0) := by
        apply List.map_congr_left
        intro x hx
        have hxd : x ≠ d := fun hxd => hnotin (hxd ▸ hx)
        rw [if_neg hxd]
      rw [hmap, List.map_cons, List.sum_cons]
      ring
    · have had : a ≠ d := fun he => (List.nodup_cons.mp hnd).1 (he ▸ h)
      simp only [List.map_cons, List.sum_cons, if_neg had]
      rw [ih (List.nodup_cons.mp hnd).2 h]
      ring

/-- Helper: over duplicate-free rows whose dates all lie in the (duplicate-
free) date list and are fresh for the initial map, the sum of the final map
over the dates grows exactly by the growth of the grand total. -/
theorem foldl_calStep_sum (dates : List YMD) (hnd : dates.Nodup) (rows : List CalRow) :
    ∀ (m0 : YMD → Option ℚ) (t0 : ℚ),
      (rows.filterMap (·.date)).Nodup →
      (∀ r ∈ rows, ∀ d, r.date = some d → d ∈ dates ∧ m0 d = none) →
      (dates.map (fun x => (((rows.foldl calStep (m0, t0)).1 x).getD 0))).sum
        = (dates.map (fun x => ((m0 x).getD 0))).sum
          + ((rows.foldl calStep (m0, t0)).2 - t0) := by
  induction rows with
  | nil => intro m0 t0 _ _; simp
  | cons r rest ih =>
    intro m0 t0 hnodup hmem
    rw [List.foldl_cons]
    cases hr : r.date with
    | none =>
      have hstep : calStep (m0, t0) r = (m0, t0) := by rw [calStep, hr]
      rw [hstep]
      apply ih
      · have hfm : (r :: rest).filterMap (·.date) = rest.filterMap (·.date) := by
          rw [List.filterMap_cons, hr]
        rw [hfm] at hnodup
        exact hnodup
      · intro r2 h2 d hd
        exact hmem r2 (List.mem_cons_of_mem _ h2) d hd
    | some d0 =>
      have hstep : calStep (m0, t0) r
          = (fun x => if x = d0 then some (r.working_time + r.over_time) else m0 x,
             t0 + (r.working_time + r.over_time)) := by
        rw [calStep, hr]
      rw [hstep]
      have hfm : (r :: rest).filterMap (·.date) = d0 :: rest.filterMap (·.date) := by
        rw [List.filterMap_cons, hr]
      rw [hfm] at hnodup
      have hd0notin : d0 ∉ rest.filterMap (·.date) := (List.nodup_cons.mp hnodup).1
      have hd0 := hmem r (List.mem_cons_self r rest) d0 hr
      have hmem2 : ∀ r2 ∈ rest, ∀ d, r2.date = some d →
          d ∈ dates ∧ (if d = d0 then some (r.working_time + r.over_time) else m0 d) = none := by
        intro r2 h2 d hd
        have h3 := hmem r2 (List.mem_cons_of_mem _ h2) d hd
        have hdne : d ≠ d0 := by
          intro he
          subst he
          exact hd0notin (List.mem_filterMap.mpr ⟨r2, h2, hd⟩)
        rw [if_neg hdne]
        exact h3
      rw [ih _ _ (List.nodup_cons.mp hnodup).2 hmem2]
      rw [sum_lookup_update dates m0 d0 _ hnd hd0.1, hd0.2]
      simp only [Option.getD_none]
      ring

/-- Helper: the sum of an elementwise division is the divided sum. -/
theorem sum_map_div (l : List ℚ) (c : ℚ) : (l.map (· / c)).sum = l.sum / c := by
  induction l with
  | nil => simp
  | cons a t ih => simp [ih, add_div]

/-- Helper: the sum of the all-ones vector over a list is its length. -/
theorem sum_map_one (l : List YMD) : (l.map (fun _ => (1 : ℚ))).sum = (l.length : ℚ) := by
  induction l with
  | nil => simp
  | cons a t ih => simp [ih, add_comm]

/-- Helper: the month date list has no duplicate dates. -/
theorem listMonthDates_nodup (y : Int) (m : Nat) : (listMonthDates y m).Nodup := by
  rw [listMonthDates]
  refine List.Nodup.map ?_ (List.nodup_range _)
  intro a b hab
  have hd := congrArg YMD.day hab
  simpa using hd

/-- Helper: every month has at least one day. -/
theorem daysInMonth_pos (y : Int) (m : Nat) : 0 < daysInMonth y m := by
  rw [daysInMonth]
  split_ifs <;> norm_num

/-- Helper: `a * c < b * c ↔ a < b` for the millisecond scaling. -/
theorem getTime_lt_iff (a b : Int) :
    a * msPerDay < b * msPerDay ↔ a < b := by
  have hms : (0 : Int) < msPerDay := by norm_num [msPerDay]
  exact mul_lt_mul_right hms

/-- Helper: the ceiling of an exact multiple of `msPerDay` divided by
`msPerDay` is the multiplier. -/
theorem ceil_msPerDay_mul (k : Int) :
    ⌈((k * msPerDay : Int) : ℚ) / (msPerDay : ℚ)⌉ = k := by
  have hc : ((msPerDay : Int) : ℚ) ≠ 0 := by norm_num [msPerDay]
  push_cast
  rw [mul_div_assoc, div_self hc, mul_one]
  exact Int.ceil_intCast k

/-- C1: for a requested month whose calendar rows (from the windowed fetch)
have duplicate-free dates lying in the month, the normalized per-day weight
vector sums to 1; under the zero-total fallback every day gets the equal
share `1 / n`, so the redistributor never divides by zero. -/
theorem c1_weights_normalized (y : Int) (mon : Nat) (rows : List CalRow)
    (hnodup : (rows.filterMap (·.date)).Nodup)
    (hmem : ∀ r ∈ rows, ∀ d, r.date = some d → d ∈ listMonthDates y mon) :
    (normWeights (listMonthDates y mon) (buildCal rows (listMonthDates y mon))).sum = 1
    ∧ ((calAccum rows).2 = 0 →
        ∀ w ∈ normWeights (listMonthDates y mon) (buildCal rows (listMonthDates y mon)),
          w = 1 / ((listMonthDates y mon).length : ℚ)) := by
  have hnd : (listMonthDates y mon).Nodup := listMonthDates_nodup y mon
  have hlen : (listMonthDates y mon).length = daysInMonth y mon := by
    rw [listMonthDates, List.length_map, List.length_range]
  have hnz : ((listMonthDates y mon).length : ℚ) ≠ 0 := by
    rw [hlen]
    exact_mod_cast (daysInMonth_pos y mon).ne'
  by_cases htot : (calAccum rows).2 = 0
  · have hcal : buildCal rows (listMonthDates y mon)
        = fun d => if d ∈ listMonthDates y mon then some 1 else (calAccum rows).1 d := by
      simp only [buildCal]
      rw [if_pos htot]
    have hraw : weightsRaw (listMonthDates y mon) (buildCal rows (listMonthDates y mon))
        = (listMonthDates y mon).map (fun _ => (1 : ℚ)) := by
      rw [weightsRaw, hcal]
      apply List.map_congr_left
      intro d hd2
      simp [hd2]
    have hsum : (weightsRaw (listMonthDates y mon)
        (buildCal rows (listMonthDates y mon))).sum = ((listMonthDates y mon).length : ℚ) := by
      rw [hraw, sum_map_one]
    constructor
    · rw [normWeights, sum_map_div, hsum, if_neg hnz, div_self hnz]
    · intro _ w hw
      rw [normWeights, hsum, if_neg hnz, hraw, List.map_map, List.mem_map] at hw
      obtain ⟨d, _, hdw⟩ := hw
      rw [← hdw]
      rfl
  · have hcal : buildCal rows (listMonthDates y mon) = (calAccum rows).1 := by
      simp only [buildCal]
      rw [if_neg htot]
    have hsum : (weightsRaw (listMonthDates y mon)
        (buildCal rows (listMonthDates y mon))).sum = (calAccum rows).2 := by
      rw [weightsRaw, hcal, calAccum]
      rw [foldl_calStep_sum (listMonthDates y mon) hnd rows (fun _ => none) 0 hnodup
        (fun r hr d hd => ⟨hmem r hr d hd, rfl⟩)]
      simp [calAccum]
    constructor
    · rw [normWeights, sum_map_div, hsum, if_neg htot, div_self htot]
    · intro h0
      exact absurd h0 htot

/-- C1 witness: the theorem applied to June 2025 with the worked-example
calendar (8 hours on the 2nd and 3rd). -/
theorem c1_weights_normalized_witness :
    (normWeights (listMonthDates 2025 6)
      (buildCal [⟨some ⟨2025, 6, 2⟩, 8, 0⟩, ⟨some ⟨2025, 6, 3⟩, 8, 0⟩]
        (listMonthDates 2025 6))).sum = 1 :=
  (c1_weights_normalized 2025 6 [⟨some ⟨2025, 6, 2⟩, 8, 0⟩, ⟨some ⟨2025, 6, 3⟩, 8, 0⟩]
    (by decide)
    (by
      intro r hr d hd
      fin_cases hr <;>
        · injection hd with h
          rw [← h]
          decide)).1

/-- Helper: rounding to two decimals is monotone. -/
theorem round2_mono {x y : ℚ} (h : x ≤ y) : round2 x ≤ round2 y := by
  rw [round2, round2]
  have h2 : round (x * 100) ≤ round (y * 100) := by
    rw [round_eq, round_eq]
    exact Int.floor_mono (by linarith)
  have h3 : ((round (x * 100) : ℤ) : ℚ) ≤ ((round (y * 100) : ℤ) : ℚ) := by
    exact_mod_cast h2
  linarith

/-- Helper: mapping two pointwise-ordered functions over a list yields
elementwise-ordered lists. -/
theorem forall2_map_le {α : Type} (l : List α) (f g : α → ℚ)
    (h : ∀ x ∈ l, f x ≤ g x) :
    List.Forall₂ (· ≤ ·) (l.map f) (l.map g) := by
  induction l with
  | nil => exact List.Forall₂.nil
  | cons a t ih =>
      exact List.Forall₂.cons (h a (List.mem_cons_self a t))
        (ih (fun x hx => h x (List.mem_cons_of_mem _ hx)))

/-- Helper: elementwise vector addition preserves elementwise order. -/
theorem forall2_addV {a b c d : List ℚ} (h1 : List.Forall₂ (· ≤ ·) a b)
    (h2 : List.Forall₂ (· ≤ ·) c d) :
    List.Forall₂ (· ≤ ·) (addV a c) (addV b d) := by
  induction h1 generalizing c d with
  | nil =>
      rw [addV, addV, List.zipWith_nil_left, List.zipWith_nil_left]
      exact List.Forall₂.nil
  | cons hab h1 ih =>
      cases h2 with
      | nil =>
          rw [addV, addV, List.zipWith_nil_right, List.zipWith_nil_right]
          exact List.Forall₂.nil
      | cons hcd h2 =>
          exact List.Forall₂.cons (add_le_add hab hcd) (ih h2)

/-- Helper: elementwise order transfers to indexed reads with default 0. -/
theorem forall2_getD {a b : List ℚ} (h : List.Forall₂ (· ≤ ·) a b) (i : Nat) :
    a.getD i 0 ≤ b.getD i 0 := by
  induction h generalizing i with
  | nil => simp
  | cons hab h ih =>
      cases i with
      | zero => simpa using hab
      | succ j => simpa using ih j

/-- Helper: pack rounding bounds — for pack ≥ 1 and unit value ≥ 0,
`floor(c/pack)*pack*v ≤ c*v ≤ ceil(c/pack)*pack*v`. -/
theorem pack_bounds (c pack v : ℚ) (hp : 1 ≤ pack) (hv : 0 ≤ v) :
    ((⌊c / pack⌋ : Int) : ℚ) * pack * v ≤ c * v
    ∧ c * v ≤ ((⌈c / pack⌉ : Int) : ℚ) * pack * v := by
  have hp0 : 0 < pack := lt_of_lt_of_le one_pos hp
  have h1 : ((⌊c / pack⌋ : Int) : ℚ) * pack ≤ c := by
    calc ((⌊c / pack⌋ : Int) : ℚ) * pack
        ≤ (c / pack) * pack :=
          mul_le_mul_of_nonneg_right (Int.floor_le (c / pack)) (le_of_lt hp0)
      _ = c := div_mul_cancel₀ c (ne_of_gt hp0)
  have h2 : c ≤ ((⌈c / pack⌉ : Int) : ℚ) * pack := by
    calc c = (c / pack) * pack := (div_mul_cancel₀ c (ne_of_gt hp0)).symm
      _ ≤ ((⌈c / pack⌉ : Int) : ℚ) * pack :=
          mul_le_mul_of_nonneg_right (Int.le_ceil (c / pack)) (le_of_lt hp0)
  exact ⟨mul_le_mul_of_nonneg_right h1 hv, mul_le_mul_of_nonneg_right h2 hv⟩

/-- Helper: the unit value is nonnegative when every master price is. -/
theorem vpu_nonneg (mm : List (String × MasterRow)) (no_mat : String)
    (hmm : ∀ no m, alookup mm no = some m → 0 ≤ m.price) :
    0 ≤ vpu mm no_mat := by
  rw [vpu]
  cases h : alookup mm no_mat with
  | none => exact le_refl 0
  | some m =>
      exact div_nonneg (hmm _ _ h) (le_trans zero_le_one (le_max_left 1 _))

/-- Helper: one forecast step keeps lower ≤ mid ≤ upper elementwise. -/
theorem forecastStep_inv (w1 w2 : List ℚ) (mm : List (String × MasterRow))
    (hmm : ∀ no m, alookup mm no = some m → 0 ≤ m.price)
    (acc : List ℚ × List ℚ × List ℚ) (r : FilteredForecastRow)
    (h1 : List.Forall₂ (· ≤ ·) acc.2.1 acc.1)
    (h2 : List.Forall₂ (· ≤ ·) acc.1 acc.2.2) :
    List.Forall₂ (· ≤ ·) (forecastStep w1 w2 mm acc r).2.1 (forecastStep w1 w2 mm acc r).1
    ∧ List.Forall₂ (· ≤ ·) (forecastStep w1 w2 mm acc r).1 (forecastStep w1 w2 mm acc r).2.2 := by
  have hp : (1 : ℚ) ≤ max 1 (((alookup mm r.no_mat).map (·.quantity)).getD 1) :=
    le_max_left 1 _
  have hv : 0 ≤ vpu mm r.no_mat := vpu_nonneg mm r.no_mat hmm
  constructor
  · exact forall2_addV h1 (forall2_map_le _ _ _ (fun c _ => (pack_bounds c _ _ hp hv).1))
  · exact forall2_addV h2 (forall2_map_le _ _ _ (fun c _ => (pack_bounds c _ _ hp hv).2))

/-- Helper: the forecast fold keeps lower ≤ mid ≤ upper elementwise. -/
theorem foldl_forecastStep_inv (w1 w2 : List ℚ) (mm : List (String × MasterRow))
    (hmm : ∀ no m, alookup mm no = some m → 0 ≤ m.price) :
    ∀ (ff : List FilteredForecastRow) (acc : List ℚ × List ℚ × List ℚ),
      List.Forall₂ (· ≤ ·) acc.2.1 acc.1 →
      List.Forall₂ (· ≤ ·) acc.1 acc.2.2 →
      List.Forall₂ (· ≤ ·) (ff.foldl (forecastStep w1 w2 mm) acc).2.1
          (ff.foldl (forecastStep w1 w2 mm) acc).1
      ∧ List.Forall₂ (· ≤ ·) (ff.foldl (forecastStep w1 w2 mm) acc).1
          (ff.foldl (forecastStep w1 w2 mm) acc).2.2 := by
  intro ff
  induction ff with
  | nil => intro acc h1 h2; exact ⟨h1, h2⟩
  | cons r t ih =>
      intro acc h1 h2
      rw [List.foldl_cons]
      have hstep := forecastStep_inv w1 w2 mm hmm acc r h1 h2
      exact ih _ hstep.1 hstep.2

/-- C2: for every month and every master map with nonnegative prices (hence
nonnegative unit values; pack sizes are clamped to ≥ 1 by the code), every
`graphData` record satisfies
`cumForecastLower ≤ cumForecast ≤ cumForecastUpper`; the worked example
(weights 0.5/0.5, monthlyQuantity 100, unitValue 10, packSize 20) yields
lower 400 / mid 500 / upper 600 after day one and 1000 for all three after
day two. -/
theorem c2_bounds_order :
    (∀ (dates : List YMD) (w1 w2 : List ℚ) (fa : List FilteredActualRow)
        (ff : List FilteredForecastRow) (mm : List (String × MasterRow)),
        (∀ no m, alookup mm no = some m → 0 ≤ m.price) →
        ∀ p ∈ graphData dates w1 w2 fa ff mm,
          p.cumForecastLower ≤ p.cumForecast ∧ p.cumForecast ≤ p.cumForecastUpper)
    ∧ graphData [⟨2025, 6, 2⟩, ⟨2025, 6, 3⟩] [1/2, 1/2] [] []
        [{ shop := "Press Shop", loc := 1, no_mat := "M1", quantity := 100, value := 1000 }]
        [("M1", ⟨200, 20, none, none⟩)]
      = [{ day := 2, actual := 0, forecast := 500, cumActual := 0, cumForecast := 500,
           cumForecastLower := 400, cumForecastUpper := 600,
           bandBottom := 100, bandTop := 100 },
         { day := 3, actual := 0, forecast := 500, cumActual := 0, cumForecast := 1000,
           cumForecastLower := 1000, cumForecastUpper := 1000,
           bandBottom := 0, bandTop := 0 }] := by
  constructor
  · intro dates w1 w2 fa ff mm hmm p hp
    have hrepl : List.Forall₂ (· ≤ ·) (List.replicate dates.length (0 : ℚ))
        (List.replicate dates.length (0 : ℚ)) :=
      List.forall₂_same.mpr (fun x _ => le_refl x)
    have hinv := foldl_forecastStep_inv w1 w2 mm hmm ff
      (List.replicate dates.length 0, List.replicate dates.length 0,
       List.replicate dates.length 0) hrepl hrepl
    rw [graphData, List.mem_map] at hp
    obtain ⟨i, _, hpi⟩ := hp
    rw [← hpi]
    exact ⟨round2_mono (forall2_getD hinv.1 i), round2_mono (forall2_getD hinv.2 i)⟩
  · have hc : (⌈(5 : ℚ) / 2⌉ : ℤ) = 3 := by norm_num [Int.ceil_eq_iff]
    rw [graphData]
    norm_num [actualDaily, cumRound, forecastCums, forecastStep, accumUnits,
      diffsRaw, addV, vpu, alookup, round2, round_eq, List.range_succ]
    constructor
    · rw [hc]; norm_num
    · rw [hc]; norm_num

/-- C2 witness: the general bound applied to the day-one record of the
worked example. -/
theorem c2_bounds_order_witness :
    ({ day := 2, actual := 0, forecast := 500, cumActual := 0, cumForecast := 500,
       cumForecastLower := 400, cumForecastUpper := 600,
       bandBottom := 100, bandTop := 100 } : GraphPoint).cumForecastLower
      ≤ ({ day := 2, actual := 0, forecast := 500, cumActual := 0, cumForecast := 500,
           cumForecastLower := 400, cumForecastUpper := 600,
           bandBottom := 100, bandTop := 100 } : GraphPoint).cumForecast := by
  refine (c2_bounds_order.1 [⟨2025, 6, 2⟩, ⟨2025, 6, 3⟩] [1/2, 1/2] [] []
    [{ shop := "Press Shop", loc := 1, no_mat := "M1", quantity := 100, value := 1000 }]
    [("M1", ⟨200, 20, none, none⟩)] ?_ _ ?_).1
  · intro no m hm
    rw [alookup] at hm
    by_cases h : ("M1" = no)
    · rw [if_pos h] at hm
      cases hm
      norm_num
    · rw [if_neg h, alookup] at hm
      cases hm
  · rw [c2_bounds_order.2]
    exact List.mem_cons_self _ _

/-- Helper: the final cumulative unit count is the start plus quantity
times the sum of the weights. -/
theorem accumUnits_getLastD (q : ℚ) (ws : List ℚ) :
    ∀ c : ℚ, (accumUnits q c ws).getLastD c = c + q * ws.sum := by
  induction ws with
  | nil => intro c; simp [accumUnits]
  | cons w t ih =>
      intro c
      rw [accumUnits, List.getLastD_cons, ih (c + q * w), List.sum_cons]
      ring

/-- Helper: the length of the cumulative unit series is the number of
weights. -/
theorem accumUnits_length (q : ℚ) (ws : List ℚ) :
    ∀ c : ℚ, (accumUnits q c ws).length = ws.length := by
  induction ws with
  | nil => intro c; rfl
  | cons w t ih => intro c; rw [accumUnits, List.length_cons, List.length_cons, ih]

/-- Helper: `getLastD` commutes with `map`. -/
theorem map_getLastD {α β : Type} (f : α → β) (l : List α) :
    ∀ a : α, (l.map f).getLastD (f a) = f (l.getLastD a) := by
  induction l with
  | nil => intro a; rfl
  | cons x t ih =>
      intro a
      rw [List.map_cons, List.getLastD_cons, List.getLastD_cons, ih x]

/-- Helper: the first differences of a series telescope to its last value
minus the starting previous value. -/
theorem diffsRaw_sum (l : List ℚ) :
    ∀ p : ℚ, (diffsRaw p l).sum = l.getLastD p - p := by
  induction l with
  | nil => intro p; simp [diffsRaw]
  | cons x t ih =>
      intro p
      rw [diffsRaw, List.sum_cons, ih x, List.getLastD_cons]
      ring

/-- Helper: adding a list elementwise to a zero vector of its own length is
the identity. -/
theorem addV_replicate_zero (l : List ℚ) :
    addV (List.replicate l.length 0) l = l := by
  induction l with
  | nil => rfl
  | cons x t ih =>
      rw [List.length_cons, List.replicate_succ, addV, List.zipWith_cons_cons, zero_add]
      rw [addV] at ih
      rw [ih]

/-- C3: for every forecast line, the first differences of its cumulative mid
series sum to `monthlyQuantity * unitValue` exactly, because the normalized
weights sum to 1 and the daily series telescopes to the final cumulative mid
value. -/
theorem c3_value_conserving (w1 w2 : List ℚ) (mm : List (String × MasterRow))
    (r : FilteredForecastRow)
    (hsum : (if r.loc = 2 then w2 else w1).sum = 1) :
    (diffsRaw 0
        (forecastCums w1 w2 (if r.loc = 2 then w2 else w1).length mm [r]).1).sum
      = r.quantity * vpu mm r.no_mat := by
  rw [forecastCums, List.foldl_cons, List.foldl_nil, forecastStep]
  simp only
  have hlen : ((accumUnits r.quantity 0 (if r.loc = 2 then w2 else w1)).map
      (fun c => c * vpu mm r.no_mat)).length
      = (if r.loc = 2 then w2 else w1).length := by
    rw [List.length_map, accumUnits_length]
  rw [← hlen, addV_replicate_zero]
  rw [diffsRaw_sum]
  set cu := accumUnits r.quantity 0 (if r.loc = 2 then w2 else w1) with hcu
  have hzero : (0 : ℚ) = 0 * vpu mm r.no_mat := (zero_mul _).symm
  rw [hzero, map_getLastD (fun c => c * vpu mm r.no_mat) cu 0, hcu,
    accumUnits_getLastD, hsum]
  ring

/-- C3 witness: the theorem applied to the worked-example line with weights
summing to 1. -/
theorem c3_value_conserving_witness :
    (diffsRaw 0
        (forecastCums [1/2, 1/2] []
          (if ({ shop := "Press Shop", loc := 1, no_mat := "M1", quantity := 100,
                 value := 1000 } : FilteredForecastRow).loc = 2
             then ([] : List ℚ) else [1/2, 1/2]).length
          [("M1", ⟨200, 20, none, none⟩)]
          [{ shop := "Press Shop", loc := 1, no_mat := "M1", quantity := 100,
             value := 1000 }]).1).sum
      = (100 : ℚ) * vpu [("M1", ⟨200, 20, none, none⟩)] "M1" :=
  c3_value_conserving [1/2, 1/2] [] [("M1", ⟨200, 20, none, none⟩)]
    { shop := "Press Shop", loc := 1, no_mat := "M1", quantity := 100, value := 1000 }
    (by norm_num)

/-- Helper: an entry of `updMap l k f` is an old entry, or sits at key `k`
with a value produced by `f` from nothing or from the old value at `k`. -/
theorem mem_updMap {κ ν : Type} [DecidableEq κ] (l : List (κ × ν)) (k : κ)
    (f : Option ν → ν) :
    ∀ kv ∈ updMap l k f,
      kv ∈ l ∨ (kv.1 = k ∧ (kv.2 = f none ∨ ∃ o, (k, o) ∈ l ∧ kv.2 = f (some o))) := by
  induction l with
  | nil =>
      intro kv h
      rw [updMap] at h
      rcases List.mem_singleton.mp h with h
      rw [h]
      exact Or.inr ⟨rfl, Or.inl rfl⟩
  | cons hd t ih =>
      obtain ⟨k0, v0⟩ := hd
      intro kv h
      rw [updMap] at h
      by_cases hk : k0 = k
      · rw [if_pos hk] at h
        rcases List.mem_cons.mp h with h1 | h1
        · rw [h1]
          refine Or.inr ⟨hk, Or.inr ⟨v0, ?_, rfl⟩⟩
          rw [← hk]
          exact List.mem_cons_self _ _
        · exact Or.inl (List.mem_cons_of_mem _ h1)
      · rw [if_neg hk] at h
        rcases List.mem_cons.mp h with h1 | h1
        · rw [h1]
          exact Or.inl (List.mem_cons_self _ _)
        · rcases ih kv h1 with h2 | ⟨hk1, h2⟩
          · exact Or.inl (List.mem_cons_of_mem _ h2)
          · refine Or.inr ⟨hk1, ?_⟩
            rcases h2 with h3 | ⟨o, ho, he⟩
            · exact Or.inl h3
            · exact Or.inr ⟨o, List.mem_cons_of_mem _ ho, he⟩

/-- Key/field invariant of the aggregate map: the stored dept and material
equal the key components. -/
def aggFieldsOk (kv : (String × String) × AggVal) : Prop :=
  kv.2.dept = kv.1.1 ∧ kv.2.no_mat = kv.1.2

/-- Helper: the forecast-totals fold keeps the field invariant, and every
key originates from the initial map or from a processed forecast row. -/
theorem foldl_forecastTotStep_inv (mm : List (String × MasterRow)) :
    ∀ (ff : List FilteredForecastRow) (agg : List ((String × String) × AggVal)),
      (∀ kv ∈ agg, aggFieldsOk kv) →
      ∀ kv ∈ ff.foldl (forecastTotStep mm) agg,
        aggFieldsOk kv
        ∧ (kv.1 ∈ agg.map (·.1) ∨ ∃ r ∈ ff, (dashDept r.shop, r.no_mat) = kv.1) := by
  intro ff
  induction ff with
  | nil =>
      intro agg hagg kv h
      exact ⟨hagg kv h, Or.inl (List.mem_map_of_mem _ h)⟩
  | cons r t ih =>
      intro agg hagg kv h
      rw [List.foldl_cons] at h
      have hstep : ∀ kv2 ∈ forecastTotStep mm agg r, aggFieldsOk kv2 := by
        intro kv2 h2
        rcases mem_updMap _ _ _ kv2 h2 with h3 | ⟨hk, h3⟩
        · exact hagg kv2 h3
        · rcases h3 with h4 | ⟨o, ho, h4⟩
          · constructor
            · rw [h4, hk]
              rfl
            · rw [h4, hk]
              rfl
          · have ho2 := hagg _ ho
            constructor
            · rw [h4, hk]
              exact ho2.1
            · rw [h4, hk]
              exact ho2.2
      have hmain := ih (forecastTotStep mm agg r) hstep kv h
      refine ⟨hmain.1, ?_⟩
      rcases hmain.2 with h2 | ⟨r2, hr2, he⟩
      · rw [List.mem_map] at h2
        obtain ⟨kv2, hkv2, he2⟩ := h2
        rcases mem_updMap _ _ _ kv2 hkv2 with h3 | ⟨hk, _⟩
        · exact Or.inl (he2 ▸ List.mem_map_of_mem _ h3)
        · exact Or.inr ⟨r, List.mem_cons_self _ _, by rw [← he2, hk]⟩
      · exact Or.inr ⟨r2, List.mem_cons_of_mem _ hr2, he⟩

/-- Helper: the actual-totals fold keeps the field invariant, and every key
originates from the initial map or from a processed actual row. -/
theorem foldl_actualTotStep_inv (mm : List (String × MasterRow)) :
    ∀ (fa : List FilteredActualRow) (agg : List ((String × String) × AggVal)),
      (∀ kv ∈ agg, aggFieldsOk kv) →
      ∀ kv ∈ fa.foldl (actualTotStep mm) agg,
        aggFieldsOk kv
        ∧ (kv.1 ∈ agg.map (·.1) ∨ ∃ r ∈ fa, (dashDept r.dept, r.no_mat) = kv.1) := by
  intro fa
  induction fa with
  | nil =>
      intro agg hagg kv h
      exact ⟨hagg kv h, Or.inl (List.mem_map_of_mem _ h)⟩
  | cons r t ih =>
      intro agg hagg kv h
      rw [List.foldl_cons] at h
      have hstep : ∀ kv2 ∈ actualTotStep mm agg r, aggFieldsOk kv2 := by
        intro kv2 h2
        rcases mem_updMap _ _ _ kv2 h2 with h3 | ⟨hk, h3⟩
        · exact hagg kv2 h3
        · rcases h3 with h4 | ⟨o, ho, h4⟩
          · constructor
            · rw [h4, hk]
              rfl
            · rw [h4, hk]
              rfl
          · have ho2 := hagg _ ho
            constructor
            · rw [h4, hk]
              exact ho2.1
            · rw [h4, hk]
              exact ho2.2
      have hmain := ih (actualTotStep mm agg r) hstep kv h
      refine ⟨hmain.1, ?_⟩
      rcases hmain.2 with h2 | ⟨r2, hr2, he⟩
      · rw [List.mem_map] at h2
        obtain ⟨kv2, hkv2, he2⟩ := h2
        rcases mem_updMap _ _ _ kv2 hkv2 with h3 | ⟨hk, _⟩
        · exact Or.inl (he2 ▸ List.mem_map_of_mem _ h3)
        · exact Or.inr ⟨r, List.mem_cons_self _ _, by rw [← he2, hk]⟩
      · exact Or.inr ⟨r2, List.mem_cons_of_mem _ hr2, he⟩

/-- Helper: every entry of the aggregate map has its fields equal to its key
components, and its key comes from a filtered forecast or actual row. -/
theorem monthTotals_inv (mm : List (String × MasterRow))
    (ff : List FilteredForecastRow) (fa : List FilteredActualRow) :
    ∀ kv ∈ monthTotalsByDeptMat mm ff fa,
      aggFieldsOk kv
      ∧ ((∃ r ∈ ff, (dashDept r.shop, r.no_mat) = kv.1)
          ∨ ∃ r ∈ fa, (dashDept r.dept, r.no_mat) = kv.1) := by
  intro kv h
  rw [monthTotalsByDeptMat] at h
  have hf := foldl_forecastTotStep_inv mm ff [] (by intro kv2 h2; cases h2)
  have ha := foldl_actualTotStep_inv mm fa (ff.foldl (forecastTotStep mm) [])
    (fun kv2 h2 => (hf kv2 h2).1) kv h
  refine ⟨ha.1, ?_⟩
  rcases ha.2 with h2 | ⟨r, hr, he⟩
  · rw [List.mem_map] at h2
    obtain ⟨kv2, hkv2, he2⟩ := h2
    rcases (hf kv2 hkv2).2 with h3 | ⟨r, hr, he⟩
    · simp at h3
    · exact Or.inl ⟨r, hr, by rw [he, he2]⟩
  · exact Or.inr ⟨r, hr, he⟩

/-- Helper: every aggregate value reachable in the usage tables takes its
key (dept, material) from some contributing filtered row. -/
theorem usage_key_origin (mm : List (String × MasterRow))
    (ff : List FilteredForecastRow) (fa : List FilteredActualRow) (v : AggVal)
    (hv : v ∈ (monthTotalsByDeptMat mm ff fa).map (·.2)) :
    (∃ r ∈ ff, dashDept r.shop = v.dept ∧ r.no_mat = v.no_mat)
    ∨ ∃ r ∈ fa, dashDept r.dept = v.dept ∧ r.no_mat = v.no_mat := by
  rw [List.mem_map] at hv
  obtain ⟨kv, hkv, he2⟩ := hv
  have hinv := monthTotals_inv mm ff fa kv hkv
  rcases hinv.2 with ⟨r, hr, he⟩ | ⟨r, hr, he⟩
  · refine Or.inl ⟨r, hr, ?_, ?_⟩
    · have h1 : dashDept r.shop = kv.1.1 := congrArg Prod.fst he
      rw [h1, ← hinv.1.1, he2]
    · have h1 : r.no_mat = kv.1.2 := congrArg Prod.snd he
      rw [h1, ← hinv.1.2, he2]
  · refine Or.inr ⟨r, hr, ?_, ?_⟩
    · have h1 : dashDept r.dept = kv.1.1 := congrArg Prod.fst he
      rw [h1, ← hinv.1.1, he2]
    · have h1 : r.no_mat = kv.1.2 := congrArg Prod.snd he
      rw [h1, ← hinv.1.2, he2]

/-- C4 counterexample: with the material filter set to Direct and a master
row of category null (hence Unassigned), the only actual transaction fails
the material filter, yet `delayedTransactions` (computed from the unfiltered
rows) still emits a delay record — so not every anomaly output contains only
records passing the filter predicate. -/
theorem c4_filter_counterexample :
    delayedTransactions
        [{ no_mat := "M1", posting_date := ⟨2025, 3, 1⟩,
           document_date := some ⟨2025, 3, 4⟩, quantity := 5, dept := some "A" }]
        [("M1", ⟨10, 1, none, none⟩)]
      ≠ []
    ∧ ∀ r ∈ [({ no_mat := "M1", posting_date := ⟨2025, 3, 1⟩,
                document_date := some ⟨2025, 3, 4⟩, quantity := 5,
                dept := some "A" } : ActualRow)],
        isMaterialAllowed ⟨2025, 3, DeptMode.all, none, MaterialOpt.cat Cat.direct⟩
          [("M1", ⟨10, 1, none, none⟩)] r.no_mat = false := by
  constructor
  · have h1 : delayEmit [("M1", (⟨10, 1, none, none⟩ : MasterRow))]
        { no_mat := "M1", posting_date := ⟨2025, 3, 1⟩,
          document_date := some ⟨2025, 3, 4⟩, quantity := 5, dept := some "A" }
        = some { no_mat := "M1", mat_name := "", shop := "A", quantity := 5,
                 delayedDays := ⌈((epochDays ⟨2025, 3, 4⟩ * msPerDay
                   - epochDays ⟨2025, 3, 1⟩ * msPerDay : Int) : ℚ) / (msPerDay : ℚ)⌉ } := rfl
    rw [delayedTransactions]
    simp only [List.filterMap_cons, h1, List.filterMap_nil]
    rw [List.mergeSort_singleton]
    exact List.cons_ne_nil _ _
  · intro r hr
    fin_cases hr
    decide

/-- C4 (amended): the department/material filter predicate is applied
identically to forecast and actual inputs before the daily series, the
period totals, and the single-month over/under usage — every filtered row
passes both predicates, and every over/under usage record's key comes from
such a row — whereas delayed postings and the continuous over/under window
are computed from unfiltered inputs. -/
theorem c4_filtered_universe :
    (∀ (f : FilterState) (ds : List String) (mm : List (String × MasterRow))
        (rows : List ActualRow),
        ∀ fr ∈ filteredActual f ds mm rows,
          ∃ r ∈ rows, isMaterialAllowed f mm r.no_mat = true
            ∧ isDeptAllowed f ds r.dept none = true
            ∧ fr.no_mat = r.no_mat ∧ fr.dept = r.dept.getD "") ∧
    (∀ (f : FilterState) (ds : List String) (mm : List (String × MasterRow))
        (sm : List (String × ℚ)) (rows : List ForecastRow),
        ∀ fr ∈ filteredForecast f ds mm sm rows,
          ∃ r ∈ rows, isMaterialAllowed f mm r.no_mat = true
            ∧ isDeptAllowed f ds none r.shop = true
            ∧ fr.no_mat = r.no_mat ∧ fr.shop = r.shop.getD "") ∧
    (∀ (mm : List (String × MasterRow)) (ff : List FilteredForecastRow)
        (fa : List FilteredActualRow),
        ∀ u ∈ overUsageRows (monthTotalsByDeptMat mm ff fa)
            ++ underUsageRows (monthTotalsByDeptMat mm ff fa),
          (∃ r ∈ ff, dashDept r.shop = u.dept ∧ r.no_mat = u.no_mat)
          ∨ ∃ r ∈ fa, dashDept r.dept = u.dept ∧ r.no_mat = u.no_mat) := by
  refine ⟨?_, ?_, ?_⟩
  · intro f ds mm rows fr hfr
    rw [filteredActual, List.mem_map] at hfr
    obtain ⟨r, hr, he⟩ := hfr
    rw [List.mem_filter] at hr
    rw [Bool.and_eq_true] at hr
    refine ⟨r, hr.1, hr.2.1, hr.2.2, ?_, ?_⟩
    · rw [← he]
    · rw [← he]
  · intro f ds mm sm rows fr hfr
    rw [filteredForecast, List.mem_map] at hfr
    obtain ⟨r, hr, he⟩ := hfr
    rw [List.mem_filter] at hr
    rw [Bool.and_eq_true] at hr
    refine ⟨r, hr.1, hr.2.1, hr.2.2, ?_, ?_⟩
    · rw [← he]
    · rw [← he]
  · intro mm ff fa u hu
    rcases List.mem_append.mp hu with h | h
    · rw [overUsageRows, List.mem_mergeSort, List.mem_filterMap] at h
      obtain ⟨v, hv, hif⟩ := h
      by_cases hdpos : 0 < round2 (v.actualValue - v.forecastValue)
      · rw [if_pos hdpos] at hif
        have hueq := Option.some_inj.mp hif
        have horigin := usage_key_origin mm ff fa v hv
        rw [← hueq]
        exact horigin
      · rw [if_neg hdpos] at hif
        cases hif
    · rw [underUsageRows, List.mem_mergeSort, List.mem_filterMap] at h
      obtain ⟨v, hv, hif⟩ := h
      by_cases hdpos : 0 < round2 (v.forecastValue - v.actualValue)
      · rw [if_pos hdpos] at hif
        have hueq := Option.some_inj.mp hif
        have horigin := usage_key_origin mm ff fa v hv
        rw [← hueq]
        exact horigin
      · rw [if_neg hdpos] at hif
        cases hif

/-- C4 witness: the amended theorem applied to a concrete filtered actual
row under the all-pass filter. -/
theorem c4_filtered_universe_witness :
    ∃ r ∈ [({ no_mat := "M1", posting_date := ⟨2025, 6, 2⟩, document_date := none,
              quantity := 5, dept := some "A" } : ActualRow)],
      isMaterialAllowed ⟨2025, 6, DeptMode.all, none, MaterialOpt.all⟩ [] r.no_mat = true
      ∧ isDeptAllowed ⟨2025, 6, DeptMode.all, none, MaterialOpt.all⟩ [] r.dept none = true
      ∧ ({ posting_date := ⟨2025, 6, 2⟩, no_mat := "M1", dept := "A", quantity := 5,
           value := round2 (5 * vpu [] "M1") } : FilteredActualRow).no_mat = r.no_mat
      ∧ ({ posting_date := ⟨2025, 6, 2⟩, no_mat := "M1", dept := "A", quantity := 5,
           value := round2 (5 * vpu [] "M1") } : FilteredActualRow).dept
          = r.dept.getD "" :=
  c4_filtered_universe.1 ⟨2025, 6, DeptMode.all, none, MaterialOpt.all⟩ [] []
    [{ no_mat := "M1", posting_date := ⟨2025, 6, 2⟩, document_date := none,
       quantity := 5, dept := some "A" }]
    { posting_date := ⟨2025, 6, 2⟩, no_mat := "M1", dept := "A", quantity := 5,
      value := round2 (5 * vpu [] "M1") }
    (List.mem_cons_self _ _)

/-- Helper: membership in the continuous-over list is membership in the
combo set with all three deltas strictly positive. -/
theorem mem_continuousOver_iff (y : Int) (mon : Nat) (mm : List (String × MasterRow))
    (f3 : List ForecastRow) (a3 : List ActualRow) (rec : DiffRec) :
    rec ∈ (continuousPair y mon mm f3 a3).1 ↔
      ((∃ dn ∈ combos (threeMonthKeys y mon) (fMap3 (threeMonthKeys y mon) mm f3)
            (aMap3 (threeMonthKeys y mon) mm a3),
          rec = mkRec (threeMonthKeys y mon) (fMap3 (threeMonthKeys y mon) mm f3)
            (aMap3 (threeMonthKeys y mon) mm a3) mm dn.1 dn.2)
        ∧ 0 < rec.diff1 ∧ 0 < rec.diff2 ∧ 0 < rec.diff3) := by
  simp only [continuousPair, List.mem_mergeSort, List.mem_filter, List.mem_map,
    decide_eq_true_eq]
  constructor
  · rintro ⟨⟨dn, hdn, he⟩, hp⟩
    exact ⟨⟨dn, hdn, he.symm⟩, hp⟩
  · rintro ⟨⟨dn, hdn, he⟩, hp⟩
    exact ⟨⟨dn, hdn, he.symm⟩, hp⟩

/-- Helper: membership in the continuous-under list is membership in the
combo set with all three deltas strictly negative. -/
theorem mem_continuousUnder_iff (y : Int) (mon : Nat) (mm : List (String × MasterRow))
    (f3 : List ForecastRow) (a3 : List ActualRow) (rec : DiffRec) :
    rec ∈ (continuousPair y mon mm f3 a3).2 ↔
      ((∃ dn ∈ combos (threeMonthKeys y mon) (fMap3 (threeMonthKeys y mon) mm f3)
            (aMap3 (threeMonthKeys y mon) mm a3),
          rec = mkRec (threeMonthKeys y mon) (fMap3 (threeMonthKeys y mon) mm f3)
            (aMap3 (threeMonthKeys y mon) mm a3) mm dn.1 dn.2)
        ∧ rec.diff1 < 0 ∧ rec.diff2 < 0 ∧ rec.diff3 < 0) := by
  simp only [continuousPair, List.mem_mergeSort, List.mem_filter, List.mem_map,
    decide_eq_true_eq]
  constructor
  · rintro ⟨⟨dn, hdn, he⟩, hp⟩
    exact ⟨⟨dn, hdn, he.symm⟩, hp⟩
  · rintro ⟨⟨dn, hdn, he⟩, hp⟩
    exact ⟨⟨dn, hdn, he.symm⟩, hp⟩

/-- C10: the continuousOver and continuousUnder lists are disjoint on
`(department, materialId)` keys — membership requires all three monthly
deltas strictly positive for one list and strictly negative for the other,
and the deltas are a function of the key. -/
theorem c10_disjoint (y : Int) (mon : Nat) (mm : List (String × MasterRow))
    (f3 : List ForecastRow) (a3 : List ActualRow) :
    (((continuousPair y mon mm f3 a3).1.map (fun rec => (rec.dept, rec.no_mat))).inter
      ((continuousPair y mon mm f3 a3).2.map (fun rec => (rec.dept, rec.no_mat)))) = [] := by
  rw [List.eq_nil_iff_forall_not_mem]
  intro k hk
  obtain ⟨h1, h2⟩ := List.mem_inter_iff.mp hk
  rw [List.mem_map] at h1 h2
  obtain ⟨r1, hr1, he1⟩ := h1
  obtain ⟨r2, hr2, he2⟩ := h2
  rw [mem_continuousOver_iff] at hr1
  rw [mem_continuousUnder_iff] at hr2
  obtain ⟨⟨dn1, _, hrec1⟩, hp1⟩ := hr1
  obtain ⟨⟨dn2, _, hrec2⟩, hp2⟩ := hr2
  have hkk := he1.trans he2.symm
  have hdd : r1.dept = r2.dept := congrArg Prod.fst hkk
  have hnn : r1.no_mat = r2.no_mat := congrArg Prod.snd hkk
  have hd1 : r1.dept = dn1.1 := by rw [hrec1]; rfl
  have hn1 : r1.no_mat = dn1.2 := by rw [hrec1]; rfl
  have hd2 : r2.dept = dn2.1 := by rw [hrec2]; rfl
  have hn2 : r2.no_mat = dn2.2 := by rw [hrec2]; rfl
  have hsame : r1 = r2 := by
    rw [hrec1, hrec2, ← hd1, ← hn1, ← hd2, ← hn2, hdd, hnn]
  have := hp1.1
  rw [hsame] at this
  exact absurd hp2.1 (not_lt.mpr (le_of_lt this))

/-- Helper: a (dept, material) key appears in the continuous-over list iff
it is a combo key and its three deltas are strictly positive. -/
theorem overKey_iff (y : Int) (mon : Nat) (mm : List (String × MasterRow))
    (f3 : List ForecastRow) (a3 : List ActualRow) (dept no : String) :
    (∃ rec ∈ (continuousPair y mon mm f3 a3).1, rec.dept = dept ∧ rec.no_mat = no)
    ↔ ((dept, no) ∈ combos (threeMonthKeys y mon) (fMap3 (threeMonthKeys y mon) mm f3)
          (aMap3 (threeMonthKeys y mon) mm a3)
        ∧ 0 < (mkRec (threeMonthKeys y mon) (fMap3 (threeMonthKeys y mon) mm f3)
            (aMap3 (threeMonthKeys y mon) mm a3) mm dept no).diff1
        ∧ 0 < (mkRec (threeMonthKeys y mon) (fMap3 (threeMonthKeys y mon) mm f3)
            (aMap3 (threeMonthKeys y mon) mm a3) mm dept no).diff2
        ∧ 0 < (mkRec (threeMonthKeys y mon) (fMap3 (threeMonthKeys y mon) mm f3)
            (aMap3 (threeMonthKeys y mon) mm a3) mm dept no).diff3) := by
  constructor
  · rintro ⟨rec, hrec, hdept, hno⟩
    rw [mem_continuousOver_iff] at hrec
    obtain ⟨⟨dn, hdn, he⟩, hp1, hp2, hp3⟩ := hrec
    have hd : dn.1 = dept := by rw [he] at hdept; exact hdept
    have hn : dn.2 = no := by rw [he] at hno; exact hno
    have he2 : rec = mkRec (threeMonthKeys y mon) (fMap3 (threeMonthKeys y mon) mm f3)
        (aMap3 (threeMonthKeys y mon) mm a3) mm dept no := by
      rw [he, hd, hn]
    have hdn2 : (dept, no) ∈ combos (threeMonthKeys y mon)
        (fMap3 (threeMonthKeys y mon) mm f3) (aMap3 (threeMonthKeys y mon) mm a3) := by
      have hdn3 : dn = (dept, no) := by rw [← hd, ← hn]
      rw [← hdn3]
      exact hdn
    rw [he2] at hp1 hp2 hp3
    exact ⟨hdn2, hp1, hp2, hp3⟩
  · rintro ⟨hdn, h1, h2, h3⟩
    refine ⟨mkRec (threeMonthKeys y mon) (fMap3 (threeMonthKeys y mon) mm f3)
      (aMap3 (threeMonthKeys y mon) mm a3) mm dept no, ?_, rfl, rfl⟩
    rw [mem_continuousOver_iff]
    exact ⟨⟨(dept, no), hdn, rfl⟩, h1, h2, h3⟩

/-- Helper: a (dept, material) key appears in the continuous-under list iff
it is a combo key and its three deltas are strictly negative. -/
theorem underKey_iff (y : Int) (mon : Nat) (mm : List (String × MasterRow))
    (f3 : List ForecastRow) (a3 : List ActualRow) (dept no : String) :
    (∃ rec ∈ (continuousPair y mon mm f3 a3).2, rec.dept = dept ∧ rec.no_mat = no)
    ↔ ((dept, no) ∈ combos (threeMonthKeys y mon) (fMap3 (threeMonthKeys y mon) mm f3)
          (aMap3 (threeMonthKeys y mon) mm a3)
        ∧ (mkRec (threeMonthKeys y mon) (fMap3 (threeMonthKeys y mon) mm f3)
            (aMap3 (threeMonthKeys y mon) mm a3) mm dept no).diff1 < 0
        ∧ (mkRec (threeMonthKeys y mon) (fMap3 (threeMonthKeys y mon) mm f3)
            (aMap3 (threeMonthKeys y mon) mm a3) mm dept no).diff2 < 0
        ∧ (mkRec (threeMonthKeys y mon) (fMap3 (threeMonthKeys y mon) mm f3)
            (aMap3 (threeMonthKeys y mon) mm a3) mm dept no).diff3 < 0) := by
  constructor
  · rintro ⟨rec, hrec, hdept, hno⟩
    rw [mem_continuousUnder_iff] at hrec
    obtain ⟨⟨dn, hdn, he⟩, hp1, hp2, hp3⟩ := hrec
    have hd : dn.1 = dept := by rw [he] at hdept; exact hdept
    have hn : dn.2 = no := by rw [he] at hno; exact hno
    have he2 : rec = mkRec (threeMonthKeys y mon) (fMap3 (threeMonthKeys y mon) mm f3)
        (aMap3 (threeMonthKeys y mon) mm a3) mm dept no := by
      rw [he, hd, hn]
    have hdn2 : (dept, no) ∈ combos (threeMonthKeys y mon)
        (fMap3 (threeMonthKeys y mon) mm f3) (aMap3 (threeMonthKeys y mon) mm a3) := by
      have hdn3 : dn = (dept, no) := by rw [← hd, ← hn]
      rw [← hdn3]
      exact hdn
    rw [he2] at hp1 hp2 hp3
    exact ⟨hdn2, hp1, hp2, hp3⟩
  · rintro ⟨hdn, h1, h2, h3⟩
    refine ⟨mkRec (threeMonthKeys y mon) (fMap3 (threeMonthKeys y mon) mm f3)
      (aMap3 (threeMonthKeys y mon) mm a3) mm dept no, ?_, rfl, rfl⟩
    rw [mem_continuousUnder_iff]
    exact ⟨⟨(dept, no), hdn, rfl⟩, h1, h2, h3⟩

/-- Helper: the stored three-month ratio is null exactly when the window
forecast total is not positive, and otherwise equals the rounded ratio. -/
theorem mkRec_pct (keys : List (Int × Nat)) (fm am : List (Key3 × ℚ))
    (mm : List (String × MasterRow)) (dept no : String) :
    ((mkRec keys fm am mm dept no).pct3m = none ↔ sumF3 keys fm dept no ≤ 0)
    ∧ (0 < sumF3 keys fm dept no →
        (mkRec keys fm am mm dept no).pct3m
          = some (round2 (sumA3 keys am dept no / sumF3 keys fm dept no * 100))) := by
  have hpct : (mkRec keys fm am mm dept no).pct3m
      = if 0 < sumF3 keys fm dept no
        then some (round2 (sumA3 keys am dept no / sumF3 keys fm dept no * 100))
        else none := rfl
  constructor
  · rw [hpct]
    by_cases h : 0 < sumF3 keys fm dept no
    · rw [if_pos h]
      exact iff_of_false (Option.some_ne_none _) (not_le.mpr h)
    · rw [if_neg h]
      exact iff_of_true rfl (not_lt.mp h)
  · intro h
    rw [hpct, if_pos h]

/-- C9: the period-view computation is deterministic — it is a pure
function of the input snapshot, so two runs over equal inputs produce equal
outputs for every component of the bundle; no hidden state is carried
between calls. -/
theorem c9_deterministic (i1 i2 : Inputs) (h : i1 = i2) :
    computePeriodView i1 = computePeriodView i2 := by
  rw [h]

/-- C9 witness: the theorem applied at a concrete input snapshot. -/
theorem c9_deterministic_witness :
    computePeriodView
        ⟨⟨2025, 6, DeptMode.all, none, MaterialOpt.all⟩, [], [], [], [], [], [], [], [], []⟩
      = computePeriodView
        ⟨⟨2025, 6, DeptMode.all, none, MaterialOpt.all⟩, [], [], [], [], [], [], [], [], []⟩ :=
  c9_deterministic _ _ rfl

/-- C6 counterexample: with a window forecast total of -300 (nonzero), the
emitted continuous-over record carries `threeMonthUsageRatio = null`,
although the claim's formula `sum(actual)/sum(forecast)*100` is defined and
the claim only allows null when the forecast total is 0. -/
theorem c6_continuous_counterexample :
    (∃ rec ∈ (continuousPair 2025 6 mmC6 f3negC6 []).1,
      rec.dept = "A" ∧ rec.no_mat = "M1" ∧ rec.pct3m = none)
    ∧ sumF3 (threeMonthKeys 2025 6) (fMap3 (threeMonthKeys 2025 6) mmC6 f3negC6)
        "A" "M1" ≠ 0 := by
  have hv : vpu mmC6 "M1" = 1 := by
    have h0 : vpu mmC6 "M1" = (1 : ℚ) / max 1 1 := rfl
    rw [h0]
    norm_num
  have hsum : sumF3 (threeMonthKeys 2025 6) (fMap3 (threeMonthKeys 2025 6) mmC6 f3negC6)
      "A" "M1"
      = (0 + (-100) * vpu mmC6 "M1")
        + ((0 + (-100) * vpu mmC6 "M1") + ((0 + (-100) * vpu mmC6 "M1") + 0)) := rfl
  have hsum2 : sumF3 (threeMonthKeys 2025 6) (fMap3 (threeMonthKeys 2025 6) mmC6 f3negC6)
      "A" "M1" = -300 := by
    rw [hsum, hv]
    norm_num
  have hcombo : ("A", "M1") ∈ combos (threeMonthKeys 2025 6)
      (fMap3 (threeMonthKeys 2025 6) mmC6 f3negC6)
      (aMap3 (threeMonthKeys 2025 6) mmC6 []) := by decide
  have hd1 : (mkRec (threeMonthKeys 2025 6) (fMap3 (threeMonthKeys 2025 6) mmC6 f3negC6)
      (aMap3 (threeMonthKeys 2025 6) mmC6 []) mmC6 "A" "M1").diff1
      = round2 (0 - (0 + (-100) * vpu mmC6 "M1")) := rfl
  have hd2 : (mkRec (threeMonthKeys 2025 6) (fMap3 (threeMonthKeys 2025 6) mmC6 f3negC6)
      (aMap3 (threeMonthKeys 2025 6) mmC6 []) mmC6 "A" "M1").diff2
      = round2 (0 - (0 + (-100) * vpu mmC6 "M1")) := rfl
  have hd3 : (mkRec (threeMonthKeys 2025 6) (fMap3 (threeMonthKeys 2025 6) mmC6 f3negC6)
      (aMap3 (threeMonthKeys 2025 6) mmC6 []) mmC6 "A" "M1").diff3
      = round2 (0 - (0 + (-100) * vpu mmC6 "M1")) := rfl
  have hp1 : 0 < (mkRec (threeMonthKeys 2025 6) (fMap3 (threeMonthKeys 2025 6) mmC6 f3negC6)
      (aMap3 (threeMonthKeys 2025 6) mmC6 []) mmC6 "A" "M1").diff1 := by
    rw [hd1, hv]
    norm_num [round2, round_eq]
  have hp2 : 0 < (mkRec (threeMonthKeys 2025 6) (fMap3 (threeMonthKeys 2025 6) mmC6 f3negC6)
      (aMap3 (threeMonthKeys 2025 6) mmC6 []) mmC6 "A" "M1").diff2 := by
    rw [hd2, hv]
    norm_num [round2, round_eq]
  have hp3 : 0 < (mkRec (threeMonthKeys 2025 6) (fMap3 (threeMonthKeys 2025 6) mmC6 f3negC6)
      (aMap3 (threeMonthKeys 2025 6) mmC6 []) mmC6 "A" "M1").diff3 := by
    rw [hd3, hv]
    norm_num [round2, round_eq]
  refine ⟨⟨mkRec (threeMonthKeys 2025 6) (fMap3 (threeMonthKeys 2025 6) mmC6 f3negC6)
      (aMap3 (threeMonthKeys 2025 6) mmC6 []) mmC6 "A" "M1", ?_, rfl, rfl, ?_⟩, ?_⟩
  · rw [mem_continuousOver_iff]
    exact ⟨⟨("A", "M1"), hcombo, rfl⟩, hp1, hp2, hp3⟩
  · refine (mkRec_pct (threeMonthKeys 2025 6) (fMap3 (threeMonthKeys 2025 6) mmC6 f3negC6)
      (aMap3 (threeMonthKeys 2025 6) mmC6 []) mmC6 "A" "M1").1.mpr ?_
    rw [hsum2]
    norm_num
  · rw [hsum2]
    norm_num

/-- C6 (amended): a (department, materialId) key appears in continuousOver
iff it is present in the three-month aggregate maps and all three monthly
deltas (2-decimal, oldest to newest) are strictly positive, and in
continuousUnder iff all three are strictly negative; deltas +100, +50, +75
qualify as continuous over while +100, -50, +75 do not;
`threeMonthUsageRatio` is the rounded `sum(actual)/sum(forecast)*100` when
the window forecast total is positive and null when it is ≤ 0 (in
particular when it is 0). -/
theorem c6_continuous_detection :
    (∀ (y : Int) (mon : Nat) (mm : List (String × MasterRow)) (f3 : List ForecastRow)
        (a3 : List ActualRow) (dept no : String),
        (∃ rec ∈ (continuousPair y mon mm f3 a3).1, rec.dept = dept ∧ rec.no_mat = no)
        ↔ ((dept, no) ∈ combos (threeMonthKeys y mon)
              (fMap3 (threeMonthKeys y mon) mm f3) (aMap3 (threeMonthKeys y mon) mm a3)
            ∧ 0 < (mkRec (threeMonthKeys y mon) (fMap3 (threeMonthKeys y mon) mm f3)
                (aMap3 (threeMonthKeys y mon) mm a3) mm dept no).diff1
            ∧ 0 < (mkRec (threeMonthKeys y mon) (fMap3 (threeMonthKeys y mon) mm f3)
                (aMap3 (threeMonthKeys y mon) mm a3) mm dept no).diff2
            ∧ 0 < (mkRec (threeMonthKeys y mon) (fMap3 (threeMonthKeys y mon) mm f3)
                (aMap3 (threeMonthKeys y mon) mm a3) mm dept no).diff3)) ∧
    (∀ (y : Int) (mon : Nat) (mm : List (String × MasterRow)) (f3 : List ForecastRow)
        (a3 : List ActualRow) (dept no : String),
        (∃ rec ∈ (continuousPair y mon mm f3 a3).2, rec.dept = dept ∧ rec.no_mat = no)
        ↔ ((dept, no) ∈ combos (threeMonthKeys y mon)
              (fMap3 (threeMonthKeys y mon) mm f3) (aMap3 (threeMonthKeys y mon) mm a3)
            ∧ (mkRec (threeMonthKeys y mon) (fMap3 (threeMonthKeys y mon) mm f3)
                (aMap3 (threeMonthKeys y mon) mm a3) mm dept no).diff1 < 0
            ∧ (mkRec (threeMonthKeys y mon) (fMap3 (threeMonthKeys y mon) mm f3)
                (aMap3 (threeMonthKeys y mon) mm a3) mm dept no).diff2 < 0
            ∧ (mkRec (threeMonthKeys y mon) (fMap3 (threeMonthKeys y mon) mm f3)
                (aMap3 (threeMonthKeys y mon) mm a3) mm dept no).diff3 < 0)) ∧
    (∀ (keys : List (Int × Nat)) (fm am : List (Key3 × ℚ))
        (mm : List (String × MasterRow)) (dept no : String),
        ((mkRec keys fm am mm dept no).pct3m = none ↔ sumF3 keys fm dept no ≤ 0)
        ∧ (0 < sumF3 keys fm dept no →
            (mkRec keys fm am mm dept no).pct3m
              = some (round2 (sumA3 keys am dept no / sumF3 keys fm dept no * 100)))) ∧
    (∃ rec ∈ (continuousPair 2025 6 mmC6 [] a3posC6).1,
      rec.dept = "A" ∧ rec.no_mat = "M1") ∧
    ¬(∃ rec ∈ (continuousPair 2025 6 mmC6 [] a3mixC6).1,
      rec.dept = "A" ∧ rec.no_mat = "M1") := by
  have hv : vpu mmC6 "M1" = 1 := by
    have h0 : vpu mmC6 "M1" = (1 : ℚ) / max 1 1 := rfl
    rw [h0]
    norm_num
  refine ⟨overKey_iff, underKey_iff, mkRec_pct, ?_, ?_⟩
  · refine (overKey_iff 2025 6 mmC6 [] a3posC6 "A" "M1").mpr ⟨by decide, ?_, ?_, ?_⟩
    · have hd1 : (mkRec (threeMonthKeys 2025 6) (fMap3 (threeMonthKeys 2025 6) mmC6 [])
          (aMap3 (threeMonthKeys 2025 6) mmC6 a3posC6) mmC6 "A" "M1").diff1
          = round2 ((0 + 100 * vpu mmC6 "M1") - 0) := rfl
      rw [hd1, hv]
      norm_num [round2, round_eq]
    · have hd2 : (mkRec (threeMonthKeys 2025 6) (fMap3 (threeMonthKeys 2025 6) mmC6 [])
          (aMap3 (threeMonthKeys 2025 6) mmC6 a3posC6) mmC6 "A" "M1").diff2
          = round2 ((0 + 50 * vpu mmC6 "M1") - 0) := rfl
      rw [hd2, hv]
      norm_num [round2, round_eq]
    · have hd3 : (mkRec (threeMonthKeys 2025 6) (fMap3 (threeMonthKeys 2025 6) mmC6 [])
          (aMap3 (threeMonthKeys 2025 6) mmC6 a3posC6) mmC6 "A" "M1").diff3
          = round2 ((0 + 75 * vpu mmC6 "M1") - 0) := rfl
      rw [hd3, hv]
      norm_num [round2, round_eq]
  · intro h
    obtain ⟨_, _, h2, _⟩ := (overKey_iff 2025 6 mmC6 [] a3mixC6 "A" "M1").mp h
    have hd2 : (mkRec (threeMonthKeys 2025 6) (fMap3 (threeMonthKeys 2025 6) mmC6 [])
        (aMap3 (threeMonthKeys 2025 6) mmC6 a3mixC6) mmC6 "A" "M1").diff2
        = round2 ((0 + (-50) * vpu mmC6 "M1") - 0) := rfl
    rw [hd2, hv] at h2
    norm_num [round2, round_eq] at h2

/-- C6 witness: the ratio branch of the theorem applied at a window with
positive forecast total. -/
theorem c6_continuous_detection_witness :
    (mkRec [(2025, 4)] [(((2025, 4), "A", "M1"), (50 : ℚ))] [] mmC6 "A" "M1").pct3m
      = some (round2 (sumA3 [(2025, 4)] [] "A" "M1"
          / sumF3 [(2025, 4)] [(((2025, 4), "A", "M1"), (50 : ℚ))] "A" "M1" * 100)) := by
  refine (c6_continuous_detection.2.2.1 [(2025, 4)]
    [(((2025, 4), "A", "M1"), (50 : ℚ))] [] mmC6 "A" "M1").2 ?_
  have hs : sumF3 [(2025, 4)] [(((2025, 4), "A", "M1"), (50 : ℚ))] "A" "M1"
      = 50 + 0 := rfl
  rw [hs]
  norm_num

/-- C5: for every actual transaction with both dates present, a delay record
is emitted iff `postingDate < documentDate`; the emitted `delayedDays` is
`ceil((documentDate - postingDate) in ms / 86400000)`, which equals the exact
day difference; the output is sorted descending by `delayedDays`; and the
worked example (posting 2025-03-01, document 2025-03-04) yields 3 days. -/
theorem c5_delay_detection :
    (∀ (mm : List (String × MasterRow)) (r : ActualRow) (doc : YMD),
        r.document_date = some doc →
        ((delayEmit mm r).isSome ↔ epochDays r.posting_date < epochDays doc)) ∧
    (∀ (mm : List (String × MasterRow)) (r : ActualRow) (doc : YMD) (rec : DelayRow),
        r.document_date = some doc → delayEmit mm r = some rec →
        rec.delayedDays =
          ⌈((epochDays doc * msPerDay - epochDays r.posting_date * msPerDay : Int) : ℚ)
             / (msPerDay : ℚ)⌉ ∧
        rec.delayedDays = epochDays doc - epochDays r.posting_date) ∧
    (∀ (rows : List ActualRow) (mm : List (String × MasterRow)),
        (delayedTransactions rows mm).Pairwise
          (fun a b => b.delayedDays ≤ a.delayedDays)) ∧
    delayedTransactions
        [{ no_mat := "M1", posting_date := ⟨2025, 3, 1⟩,
           document_date := some ⟨2025, 3, 4⟩, quantity := 5, dept := some "A" }] []
      = [{ no_mat := "M1", mat_name := "", shop := "A", quantity := 5, delayedDays := 3 }] := by
  refine ⟨?_, ?_, ?_, ?_⟩
  · intro mm r doc hdoc
    rw [delayEmit, hdoc]
    by_cases h : epochDays r.posting_date * msPerDay < epochDays doc * msPerDay
    · simp only [if_pos h, Option.isSome_some, true_iff]
      exact (getTime_lt_iff _ _).mp h
    · simp only [if_neg h, Option.isSome_none, Bool.false_eq_true, false_iff, not_lt]
      exact le_of_not_lt (fun hlt => h ((getTime_lt_iff _ _).mpr hlt))
  · intro mm r doc rec hdoc hemit
    simp only [delayEmit, hdoc] at hemit
    by_cases h : epochDays r.posting_date * msPerDay < epochDays doc * msPerDay
    · rw [if_pos h] at hemit
      have hrec := (Option.some_inj.mp hemit).symm
      subst hrec
      constructor
      · rfl
      · show ⌈((epochDays doc * msPerDay - epochDays r.posting_date * msPerDay : Int) : ℚ)
               / (msPerDay : ℚ)⌉ = epochDays doc - epochDays r.posting_date
        have hfac : epochDays doc * msPerDay - epochDays r.posting_date * msPerDay
            = (epochDays doc - epochDays r.posting_date) * msPerDay := by ring
        rw [hfac, ceil_msPerDay_mul]
    · rw [if_neg h] at hemit
      exact absurd hemit (by simp)
  · intro rows mm
    rw [delayedTransactions]
    refine List.Pairwise.imp ?_
      (List.sorted_mergeSort ?_ ?_ (rows.filterMap (delayEmit mm)))
    · intro a b h
      exact of_decide_eq_true h
    · intro a b c hab hbc
      simp only [decide_eq_true_eq] at hab hbc ⊢
      exact le_trans hbc hab
    · intro a b
      rcases le_total a.delayedDays b.delayedDays with h | h
      · simp [h]
      · simp [h]
  · have hceil : ⌈((epochDays ⟨2025, 3, 4⟩ * msPerDay
          - epochDays ⟨2025, 3, 1⟩ * msPerDay : Int) : ℚ) / (msPerDay : ℚ)⌉ = (3 : Int) := by
      have h2 : epochDays ⟨2025, 3, 4⟩ * msPerDay - epochDays ⟨2025, 3, 1⟩ * msPerDay
          = 3 * msPerDay := by decide
      rw [h2, ceil_msPerDay_mul]
    have h1 : delayEmit ([] : List (String × MasterRow))
        { no_mat := "M1", posting_date := ⟨2025, 3, 1⟩,
          document_date := some ⟨2025, 3, 4⟩, quantity := 5, dept := some "A" }
        = some { no_mat := "M1", mat_name := "", shop := "A", quantity := 5,
                 delayedDays := ⌈((epochDays ⟨2025, 3, 4⟩ * msPerDay
                   - epochDays ⟨2025, 3, 1⟩ * msPerDay : Int) : ℚ) / (msPerDay : ℚ)⌉ } := rfl
    rw [hceil] at h1
    rw [delayedTransactions]
    simp only [List.filterMap_cons, h1, List.filterMap_nil]
    rw [List.mergeSort_singleton]

/-- C5 witness: the theorem applied at the worked example. -/
theorem c5_delay_detection_witness :
    ({ no_mat := "M1", mat_name := "", shop := "A", quantity := 5,
       delayedDays := 3 } : DelayRow).delayedDays
      = epochDays ⟨2025, 3, 4⟩ - epochDays ⟨2025, 3, 1⟩ := by
  have hceil : ⌈((epochDays ⟨2025, 3, 4⟩ * msPerDay
        - epochDays ⟨2025, 3, 1⟩ * msPerDay : Int) : ℚ) / (msPerDay : ℚ)⌉ = (3 : Int) := by
    have h2 : epochDays ⟨2025, 3, 4⟩ * msPerDay - epochDays ⟨2025, 3, 1⟩ * msPerDay
        = 3 * msPerDay := by decide
    rw [h2, ceil_msPerDay_mul]
  have h1 : delayEmit ([] : List (String × MasterRow))
      { no_mat := "M1", posting_date := ⟨2025, 3, 1⟩,
        document_date := some ⟨2025, 3, 4⟩, quantity := 5, dept := some "A" }
      = some { no_mat := "M1", mat_name := "", shop := "A", quantity := 5,
               delayedDays := ⌈((epochDays ⟨2025, 3, 4⟩ * msPerDay
                 - epochDays ⟨2025, 3, 1⟩ * msPerDay : Int) : ℚ) / (msPerDay : ℚ)⌉ } := rfl
  rw [hceil] at h1
  exact (c5_delay_detection.2.1 [] _ ⟨2025, 3, 4⟩ _ rfl h1).2

/-- C7 counterexample: under the `unassigned` department mode, a row whose
department value is the empty string passes the filter, although the claim
requires the value to be non-empty (the spec predicate "non-empty and absent
from the reference set" is false for it). -/
theorem c7_unassigned_counterexample :
    isDeptAllowed ⟨2025, 6, DeptMode.unassigned, none, MaterialOpt.all⟩
        ["Press Shop"] (some "") none = true
    ∧ ¬(("" : String) ≠ "" ∧ ("" : String) ∉ (["Press Shop"] : List String)) := by
  constructor
  · decide
  · intro h
    exact h.1 rfl

/-- C7 (amended): under the `unassigned` department mode, a line passes the
department filter iff its coalesced trimmed department/shop value is empty or
absent from the department reference set; in particular "ZZZ" (absent) is
included and "Press Shop" (present) is excluded. -/
theorem c7_unassigned_filter :
    (∀ (f : FilterState) (ds : List String) (rowDept rowShop : Option String),
        f.deptMode = DeptMode.unassigned →
        (isDeptAllowed f ds rowDept rowShop = true ↔
          (jsTrim (rowDept.getD (rowShop.getD "")) = ""
            ∨ jsTrim (rowDept.getD (rowShop.getD "")) ∉ ds))) ∧
    isDeptAllowed ⟨2025, 6, DeptMode.unassigned, none, MaterialOpt.all⟩
        ["Press Shop"] (some "ZZZ") none = true ∧
    isDeptAllowed ⟨2025, 6, DeptMode.unassigned, none, MaterialOpt.all⟩
        ["Press Shop"] (some "Press Shop") none = false := by
  refine ⟨?_, by decide, by decide⟩
  intro f ds rowDept rowShop hmode
  obtain ⟨y, m, dm, sel, mat⟩ := f
  simp only at hmode
  subst hmode
  simp [isDeptAllowed]

/-- C7 witness: the amended theorem applied at the "ZZZ" example. -/
theorem c7_unassigned_filter_witness :
    isDeptAllowed ⟨2025, 6, DeptMode.unassigned, none, MaterialOpt.all⟩
        ["Press Shop"] (some "ZZZ") none = true ↔
      (jsTrim ((some "ZZZ").getD ((none : Option String).getD "")) = ""
        ∨ jsTrim ((some "ZZZ").getD ((none : Option String).getD ""))
            ∉ (["Press Shop"] : List String)) :=
  c7_unassigned_filter.1 ⟨2025, 6, DeptMode.unassigned, none, MaterialOpt.all⟩
    ["Press Shop"] (some "ZZZ") none rfl

/-- C8 counterexample: the raw category "direct material" is neither of the
variants "direct" / "dm" listed by the claim, yet it normalizes to Direct,
not Unassigned. -/
theorem c8_category_counterexample :
    normalizeCategory (some "direct material") = Cat.direct
    ∧ ¬(("direct material" : String) = "direct" ∨ ("direct material" : String) = "dm")
    ∧ Cat.direct ≠ Cat.unassigned := by
  refine ⟨by decide, by decide, by decide⟩

/-- C8 (amended): after trimming and ASCII lowercasing, the variants
"direct", "direct material", "dm" map to Direct, "indirect",
"indirect material", "im" map to Indirect, and every other string (including
missing) maps to Unassigned; `packSize` is floored at 1 so the unit-value
division `price / max(1, quantity)` never divides by zero. -/
theorem c8_category_normalization :
    (∀ raw : Option String,
        (normalizeCategory raw = Cat.direct ↔
          jsLower (jsTrim (raw.getD ""))
            ∈ (["direct", "direct material", "dm"] : List String))
        ∧ (normalizeCategory raw = Cat.indirect ↔
            jsLower (jsTrim (raw.getD ""))
              ∈ (["indirect", "indirect material", "im"] : List String)
            ∧ jsLower (jsTrim (raw.getD ""))
                ∉ (["direct", "direct material", "dm"] : List String))
        ∧ (normalizeCategory raw = Cat.unassigned ↔
            jsLower (jsTrim (raw.getD ""))
              ∉ (["direct", "direct material", "dm"] : List String)
            ∧ jsLower (jsTrim (raw.getD ""))
                ∉ (["indirect", "indirect material", "im"] : List String))) ∧
    (∀ (mm : List (String × MasterRow)) (no_mat : String) (m : MasterRow),
        alookup mm no_mat = some m →
        vpu mm no_mat = m.price / max 1 m.quantity ∧ (0 : ℚ) < max 1 m.quantity) ∧
    (∀ (mm : List (String × MasterRow)) (no_mat : String),
        alookup mm no_mat = none → vpu mm no_mat = 0) := by
  refine ⟨?_, ?_, ?_⟩
  · intro raw
    rw [normalizeCategory]
    by_cases hd : jsLower (jsTrim (raw.getD "")) = "direct"
        ∨ jsLower (jsTrim (raw.getD "")) = "direct material"
        ∨ jsLower (jsTrim (raw.getD "")) = "dm"
    · simp [hd]
    · by_cases hi : jsLower (jsTrim (raw.getD "")) = "indirect"
          ∨ jsLower (jsTrim (raw.getD "")) = "indirect material"
          ∨ jsLower (jsTrim (raw.getD "")) = "im"
      · simp [hd, hi]
      · simp [hd, hi]
  · intro mm no_mat m hm
    rw [vpu, hm]
    refine ⟨rfl, ?_⟩
    exact lt_max_of_lt_left zero_lt_one
  · intro mm no_mat hm
    rw [vpu, hm]

/-- C8 witness: the amended theorem applied at a concrete master row. -/
theorem c8_category_normalization_witness :
    vpu [("M1", ⟨10, 2, none, none⟩)] "M1"
        = (⟨10, 2, none, none⟩ : MasterRow).price
            / max 1 (⟨10, 2, none, none⟩ : MasterRow).quantity
    ∧ (0 : ℚ) < max 1 (⟨10, 2, none, none⟩ : MasterRow).quantity :=
  c8_category_normalization.2.1 [("M1", ⟨10, 2, none, none⟩)] "M1"
    ⟨10, 2, none, none⟩ rfl

end ActualPage

